import Mathlib

/-!
# gin_logger: trace/span identifiers and the asynchronous logger

A shallow embedding of `common/lib/func.go`, `common/log/log.go` and
`common/log/config.go`, followed by the properties proved about it.

Conventions of the embedding.

* Go machine integers are `Nat`/`Int` with the wrap-around written out.
* A Go `panic` is the `none` of an `Option` result.
* Calls into the standard library whose result is an input of the program
  (the clock, the process id, the random source, the interface list) are
  arguments of the embedded function.
-/

namespace GinLogger

/-! ## Formatting helpers (`fmt`, `encoding/hex`) -/

/-- Lower-case hexadecimal alphabet `[0-9a-f]`. -/
def isLowerHex (c : Char) : Bool :=
  ('0' ≤ c && c ≤ '9') || ('a' ≤ c && c ≤ 'f')

/-- Padding of `fmt`'s `%0Nx` verbs: zeros on the left up to the minimum
width, nothing is ever cut off. -/
def padZero (width : Nat) (ds : List Char) : List Char :=
  List.replicate (width - ds.length) '0' ++ ds

/-- The `fmt.Sprintf("%0Nx", n)` of a non-negative integer: its lower-case
hexadecimal digits, zero-padded to at least `width` characters. -/
def fmtHex (width n : Nat) : String :=
  String.mk (padZero width (Nat.toDigits 16 n))

/-- The `hex.EncodeToString`: two lower-case hexadecimal digits per byte. -/
def hexEncode (bs : List Nat) : String :=
  String.mk (bs.flatMap fun b => [Nat.digitChar (b / 16 % 16), Nat.digitChar (b % 16)])

/-! ## `net.IP` -/

/-- The `net.IP`: a byte slice, of length 4 or 16 when it is an address; the
nil slice is `[]`. -/
abbrev IP := List Nat

/-- The `IP.To4`: the 4-byte form of an IPv4 address (given as 4 bytes or as an
IPv4-mapped 16-byte address), `none` (nil) when the address is not IPv4. -/
def To4 (ip : IP) : Option IP :=
  if ip.length = 4 then some ip
  else if ip.length = 16 ∧ ip.take 10 = List.replicate 10 0 ∧
      (ip.drop 10).take 2 = [255, 255] then some (ip.drop 12)
  else none

/-- The `IP.IsLoopback`: `127.x.y.z` for IPv4, `::1` otherwise. -/
def IsLoopback (ip : IP) : Bool :=
  match To4 ip with
  | some ip4 => ip4.head? == some 127
  | none => ip == List.replicate 15 0 ++ [1]

/-- The `binary.BigEndian.Uint32`: panics (`none`) on fewer than four bytes. -/
def bigEndianUint32 (b : List Nat) : Option Nat :=
  match b with
  | b0 :: b1 :: b2 :: b3 :: _ => some (b0 * 2 ^ 24 + b1 * 2 ^ 16 + b2 * 2 ^ 8 + b3)
  | _ => none

/-! ## The clock -/

/-- A reading of `time.Now()`: whole seconds since the Unix epoch and the
nanoseconds within the second. -/
structure Time where
  sec : Int
  nsec : Nat
  deriving DecidableEq, Repr

/-- The `Time.Unix`. -/
def Time.Unix (t : Time) : Int := t.sec

/-- An `int64` value of an integer: wrap-around modulo `2^64`. -/
def wrapInt64 (x : Int) : Int := (x + 2 ^ 63) % 2 ^ 64 - 2 ^ 63

/-- The `Time.UnixNano` (an `int64`). -/
def Time.UnixNano (t : Time) : Int := wrapInt64 (t.sec * 1000000000 + t.nsec)

/-- The conversion `uint32(x)` of a signed integer: its low 32 bits. -/
def toUint32 (x : Int) : Nat := (x % 2 ^ 32).toNat

/-- The `x & 0xffff` of a signed integer: its low 16 bits. -/
def low16 (x : Int) : Nat := (x % 2 ^ 16).toNat

/-! ## `net.ParseIP` -/

/-- Dotted-decimal fields of an IPv4 literal (`netip.parseIPv4Fields`): four
fields, each with at least one digit, no leading zero and a value of at most 255.
The accumulators are the loop variables `val`, `digLen` and the `fields` filled
so far; `first` tells that the character is the first one, `prevDot` that the
previous one was a dot. -/
def parseIPv4Fields : List Char → (val digLen : Nat) → (fields : List Nat) →
    (first prevDot : Bool) → Option (List Nat)
  | [], val, _, fields, _, _ => if fields.length < 3 then none else some (fields ++ [val])
  | c :: cs, val, digLen, fields, first, prevDot =>
    if c.isDigit then
      if digLen = 1 ∧ val = 0 then none
      else if val * 10 + (c.toNat - 48) > 255 then none
      else parseIPv4Fields cs (val * 10 + (c.toNat - 48)) (digLen + 1) fields false false
    else if c = '.' then
      if first ∨ cs = [] ∨ prevDot then none
      else if fields.length = 3 then none
      else parseIPv4Fields cs 0 0 (fields ++ [val]) false true
    else none

/-- The `netip.parseIPv4`: the four bytes of a dotted-decimal literal. -/
def parseIPv4 (s : List Char) : Option (List Nat) := parseIPv4Fields s 0 0 [] true false

/-- Value of a hexadecimal digit, `none` for any other character. -/
def hexVal (c : Char) : Option Nat :=
  if '0' ≤ c ∧ c ≤ '9' then some (c.toNat - 48)
  else if 'a' ≤ c ∧ c ≤ 'f' then some (c.toNat - 87)
  else if 'A' ≤ c ∧ c ≤ 'F' then some (c.toNat - 55)
  else none

/-- One colon-separated group of an IPv6 literal: the number of hexadecimal
digits read, their value and the rest of the input; `none` on a fifth digit. -/
def scanHex : List Char → (off acc : Nat) → Option (Nat × Nat × List Char)
  | [], off, acc => some (off, acc, [])
  | c :: cs, off, acc =>
    match hexVal c with
    | none => some (off, acc, c :: cs)
    | some v =>
      if off > 3 then none
      else if acc * 16 + v > 65535 then none
      else scanHex cs (off + 1) (acc * 16 + v)

/-- The group loop of `netip.parseIPv6`. The bytes written so far are `ip` (the
loop index `i` is `ip.length`), `ellipsis` is the position of `::` when one was
seen. Returns the unread input, the bytes and the ellipsis position. -/
def parseIPv6Loop : Nat → List Char → List Nat → Option Nat →
    Option (List Char × List Nat × Option Nat)
  | 0, s, ip, ellipsis => some (s, ip, ellipsis)
  | fuel + 1, s, ip, ellipsis =>
    if 16 ≤ ip.length then some (s, ip, ellipsis)
    else
      match scanHex s 0 0 with
      | none => none
      | some (off, acc, rest) =>
        if off = 0 then none
        else if rest.head? = some '.' then
          if ellipsis = none ∧ ip.length ≠ 12 then none
          else if ip.length + 4 > 16 then none
          else
            match parseIPv4 s with
            | none => none
            | some fields => some ([], ip ++ fields, ellipsis)
        else
          let ip1 := ip ++ [acc / 256 % 256, acc % 256]
          match rest with
          | [] => some ([], ip1, ellipsis)
          | c :: s1 =>
            if c ≠ ':' then none
            else
              match s1 with
              | [] => none
              | ':' :: s2 =>
                if ellipsis.isSome then none
                else if s2 = [] then some ([], ip1, some ip1.length)
                else parseIPv6Loop fuel s2 ip1 (some ip1.length)
              | _ => parseIPv6Loop fuel s1 ip1 ellipsis

/-- The `netip.parseIPv6` as `net.ParseIP` uses it: a literal with a zone
(`%`) is rejected; a `::` stands for at least one group of zeros. -/
def parseIPv6 (s : List Char) : Option (List Nat) :=
  if '%' ∈ s then none
  else
    let start : List Char × Option Nat :=
      match s with
      | ':' :: ':' :: s1 => (s1, some 0)
      | _ => (s, none)
    if start.2.isSome ∧ start.1 = [] then some (List.replicate 16 0)
    else
      match parseIPv6Loop 9 start.1 [] start.2 with
      | none => none
      | some (rest, ip, ellipsis) =>
        if rest ≠ [] then none
        else if ip.length < 16 then
          match ellipsis with
          | none => none
          | some e => some (ip.take e ++ List.replicate (16 - ip.length) 0 ++ ip.drop e)
        else if ellipsis.isSome then none
        else some ip

/-- Dispatch of `netip.ParseAddr` on the first of `.`, `:` and `%` in the
input; an IPv4 result is given in its 16-byte IPv4-mapped form. -/
def parseAddr : List Char → List Char → Option (List Nat)
  | [], _ => none
  | c :: cs, s =>
    if c = '.' then (parseIPv4 s).map fun v4 => List.replicate 10 0 ++ [255, 255] ++ v4
    else if c = ':' then parseIPv6 s
    else if c = '%' then none
    else parseAddr cs s

/-- The `net.ParseIP`: the 16-byte form of the address a literal denotes,
`none` (nil) when the text is not a valid IPv4 or IPv6 literal. -/
def ParseIP (s : String) : Option IP := parseAddr s.toList s.toList

/-! ## `IP.String` -/

/-- The eight 16-bit groups of a 16-byte address. -/
def v6Groups : List Nat → List Nat
  | hi :: lo :: rest => (hi * 256 + lo) :: v6Groups rest
  | _ => []

/-- Search of the IPv6 formatter of `netip` for the longest run of at least two
zero groups: `i` is the group looked at, `(zs, ze)` the best run so far. -/
def longestZeroRun (gs : List Nat) : Nat → Nat → Nat × Nat → Nat × Nat
  | 0, _, best => best
  | fuel + 1, i, (zs, ze) =>
    let j := i + ((gs.drop i).takeWhile (· == 0)).length
    longestZeroRun gs fuel (i + 1) (if j - i ≥ 2 ∧ j - i > ze - zs then (i, j) else (zs, ze))

/-- Output loop of the IPv6 formatter of `netip`: groups in hexadecimal without
leading zeros, separated by colons, the chosen zero run written as `::`. -/
def v6Text (gs : List Nat) (zs ze : Nat) : Nat → Nat → List Char
  | 0, _ => []
  | fuel + 1, i =>
    if 8 ≤ i then []
    else if i = zs then
      ':' :: ':' ::
        (if 8 ≤ ze then [] else Nat.toDigits 16 (gs.getD ze 0) ++ v6Text gs zs ze fuel (ze + 1))
    else
      (if 0 < i then [':'] else []) ++ Nat.toDigits 16 (gs.getD i 0) ++
        v6Text gs zs ze fuel (i + 1)

/-- The `IP.String`: "<nil>" for the nil address, dotted decimal for an IPv4
address, the canonical IPv6 text for other 16-byte addresses, `?` followed by
the hexadecimal bytes for any other length. -/
def IPString (ip : IP) : String :=
  if ip.length = 0 then "<nil>"
  else if ip.length ≠ 4 ∧ ip.length ≠ 16 then "?" ++ hexEncode ip
  else
    match To4 ip with
    | some p4 => ".".intercalate (p4.map fun b => toString b)
    | none =>
      let gs := v6Groups ip
      let z := longestZeroRun gs 8 0 (255, 255)
      String.mk (v6Text gs z.1 z.2 9 0)

/-! ## `common/lib/func.go` -/

/-- An entry of `net.InterfaceAddrs()`: an `*net.IPNet` or some other
implementation of `net.Addr`. -/
inductive Addr where
  | ipNet (ip : IP) (mask : List Nat)
  | other (text : String)
  deriving DecidableEq, Repr

/-- The loop body of `GetLocalIPs`: an address is kept when it is an `*net.IPNet`,
is not a loopback address and has a 4-byte form. -/
def keepAddr : Addr → Option IP
  | .ipNet ip _ => if !IsLoopback ip && (To4 ip).isSome then some ip else none
  | .other _ => none

/-- The `GetLocalIPs`: the non-loopback IPv4 addresses of the machine, in the
order of `net.InterfaceAddrs()`; nil when that lookup fails. -/
def GetLocalIPs (interfaceAddr : Except String (List Addr)) : List IP :=
  match interfaceAddr with
  | .error _ => []
  | .ok addrs => addrs.filterMap keepAddr

/-- The package variable `var LocalIP = GetLocalIPs()[0]`, evaluated when the
package is initialised; `none` is the index-out-of-range panic. -/
def LocalIP (interfaceAddr : Except String (List Addr)) : Option IP :=
  (GetLocalIPs interfaceAddr)[0]?

/-- The `NewSpanId`. Inputs: the package variable `LocalIP`, the clock and the
draw of `rand.Int31()`. `none` is the panic of `binary.BigEndian.Uint32` on a
slice shorter than four bytes. -/
def NewSpanId (localIP : IP) (now : Time) (rnd : Nat) : Option String :=
  let timestamp := toUint32 now.Unix
  match bigEndianUint32 ((To4 localIP).getD []) with
  | none => none
  | some ipToLong => some (fmtHex 8 (ipToLong ^^^ timestamp) ++ fmtHex 8 rnd)

/-- Address part of `calcTraceId`: eight zeros when `net.ParseIP` gives nil,
else the hexadecimal bytes of the 4-byte form of the parsed address. -/
def traceIdAddr (ip : String) : String :=
  match ParseIP ip with
  | none => "00000000"
  | some netIP => hexEncode ((To4 netIP).getD [])

/-- The `calcTraceId`. Inputs: the address text, the clock, `os.Getpid()` and
the draw of `rand.Int31n(1<<24)`. -/
def calcTraceId (ip : String) (now : Time) (pid : Int) (rnd : Nat) : String :=
  let timestamp := toUint32 now.Unix
  let timeNano := now.UnixNano
  traceIdAddr ip
  ++ fmtHex 8 (timestamp % 2 ^ 32)
  ++ fmtHex 4 (low16 timeNano)
  ++ fmtHex 4 (low16 pid)
  ++ fmtHex 6 rnd
  ++ "b0"

/-- The `GetTraceId`, given the value of the package variable `LocalIP`. -/
def GetTraceId (localIP : IP) (now : Time) (pid : Int) (rnd : Nat) : String :=
  calcTraceId (IPString localIP) now pid rnd

/-- A process that is started and then asks for a trace id: the package
initialisation of `LocalIP` comes first, and its panic ends the process. -/
def startAndGetTraceId (interfaceAddr : Except String (List Addr)) (now : Time) (pid : Int)
    (rnd : Nat) : Option String :=
  match LocalIP interfaceAddr with
  | none => none
  | some localIP => some (GetTraceId localIP now pid rnd)

/-! ## `common/log/log.go`: records, sinks, the logger -/

/-- The `LEVEL_FLAGS` table. -/
def LEVEL_FLAGS : List String := ["TRACE", "DEBUG", "INFO", "WARN", "ERROR", "FATAL"]

def TRACE : Int := 0
def DEBUG : Int := 1
def INFO : Int := 2
def WARNING : Int := 3
def ERROR : Int := 4
def FATAL : Int := 5

def tunnel_size_default : Nat := 1024

/-- The `Record` struct. -/
structure Record where
  time : String
  code : String
  info : String
  level : Int
  deriving DecidableEq, Repr

/-- The `Record.String`; `none` is the index-out-of-range panic of
`LEVEL_FLAGS[r.level]`. -/
def Record.String (r : Record) : Option String :=
  if r.level < 0 then none
  else
    match LEVEL_FLAGS[r.level.toNat]? with
    | none => none
    | some flag => some ("[" ++ flag ++ "][" ++ r.time ++ "][" ++ r.code ++ "] " ++ r.info ++ "\n")

/-- The interfaces `Writer`, `Rotater` and `Flusher` over a type `W` of sink
states. A method takes the state of the sink and gives the new state with the
`error` it returns (`none` is nil). `Flush` and `Rotate` give `none` on a sink
whose type does not implement `Flusher`, respectively `Rotater` (the type
assertions `w.(Flusher)` and `w.(Rotater)` of the source). -/
structure WriterOps (W : Type) where
  Init : W → W × Option String
  Write : W → Record → W × Option String
  Flush : W → Option (W × Option String)
  Rotate : W → Option (W × Option String)

/-- The `Logger` struct. The channel `tunnel` is the list of the records sent
and not yet received, oldest first: the buffer (of capacity
`tunnel_size_default`) followed by the sends that wait on a full buffer, which
the runtime serves in arrival order; `tunnelClosed` tells that `close` was
called on it. The channel `c` is the list of its buffered values. The pool is
the list of the records put back and not yet handed out again. -/
structure Logger (W : Type) where
  writers : List W
  tunnel : List Record
  tunnelClosed : Bool
  level : Int
  lastTime : Int
  lastTimeStr : String
  c : List Bool
  layout : String
  recordPool : List Record

/-- What the logger does that can be observed from outside its fields: calls
on the pool, on the channels, on the registered sinks (named by their index in
`writers`) and on the diagnostic stream `log.Println`. -/
inductive Event where
  | Get
  | Send (r : Record)
  | Write (i : Nat) (r : Record)
  | Flush (i : Nat)
  | Rotate (i : Nat)
  | Println (err : String)
  | Put (r : Record)
  | CloseTunnel
  | Done
  | CloseReturn
  deriving DecidableEq, Repr

/-- The fields `NewLogger` gives a fresh `Logger`. -/
def Logger.fresh (W : Type) : Logger W where
  writers := []
  tunnel := []
  tunnelClosed := false
  level := DEBUG
  lastTime := 0
  lastTimeStr := ""
  c := []
  layout := "2006/01/02 15:04:05"
  recordPool := []

/-- The `Logger.Register`; `none` is the `panic(err)` on a failed `Init`. -/
def Logger.Register {W : Type} (ops : WriterOps W) (l : Logger W) (w : W) : Option (Logger W) :=
  match ops.Init w with
  | (_, some _) => none
  | (w1, none) => some { l with writers := l.writers ++ [w1] }

/-- The `Logger.SetLevel`. -/
def Logger.SetLevel {W : Type} (l : Logger W) (lvl : Int) : Logger W := { l with level := lvl }

/-- The `Logger.SetLayout`. -/
def Logger.SetLayout {W : Type} (l : Logger W) (layout : String) : Logger W :=
  { l with layout := layout }

/-- What a leveled call reads from outside the logger: the message as
`fmt.Sprintf(format, args...)` and as `fmt.Sprint(args...)` would build it, the
`path.Base(file)` and `line` of `runtime.Caller(2)` when it succeeds, the clock
and `now.Format` as a function of the layout. -/
structure CallEnv where
  sprintf : String
  sprint : String
  caller : Option (String × Int)
  now : Time
  nowFormat : String → String

/-- The `sync.Pool.Get` on the pool of records: a record put back earlier
when there is one, else the `&Record{}` of `New`. -/
def poolGet (pool : List Record) : Record × List Record :=
  match pool with
  | [] => ({ time := "", code := "", info := "", level := 0 }, [])
  | r :: rest => (r, rest)

/-- The `Logger.deliverRecordToWriter`. Gives the new state of the logger
and the events of the call; `none` is the panic of a send on a closed channel. -/
def Logger.deliverRecordToWriter {W : Type} (l : Logger W) (level : Int) (format : String)
    (env : CallEnv) : Option (Logger W × List Event) :=
  if level < l.level then some (l, [])
  else
    let inf := if format ≠ "" then env.sprintf else env.sprint
    let code :=
      match env.caller with
      | some (file, line) => file ++ ":" ++ toString line
      | none => ""
    let l1 : Logger W :=
      if env.now.Unix ≠ l.lastTime then
        { l with lastTime := env.now.Unix, lastTimeStr := env.nowFormat l.layout }
      else l
    let got := poolGet l1.recordPool
    let r : Record := { got.1 with info := inf, code := code, time := l1.lastTimeStr, level := level }
    if l1.tunnelClosed then none
    else some ({ l1 with recordPool := got.2, tunnel := l1.tunnel ++ [r] }, [Event.Get, Event.Send r])

def Logger.Trace {W : Type} (l : Logger W) (fmt : String) (env : CallEnv) :=
  l.deliverRecordToWriter TRACE fmt env

def Logger.Debug {W : Type} (l : Logger W) (fmt : String) (env : CallEnv) :=
  l.deliverRecordToWriter DEBUG fmt env

def Logger.Warn {W : Type} (l : Logger W) (fmt : String) (env : CallEnv) :=
  l.deliverRecordToWriter WARNING fmt env

def Logger.Info {W : Type} (l : Logger W) (fmt : String) (env : CallEnv) :=
  l.deliverRecordToWriter INFO fmt env

def Logger.Error {W : Type} (l : Logger W) (fmt : String) (env : CallEnv) :=
  l.deliverRecordToWriter ERROR fmt env

def Logger.Fatal {W : Type} (l : Logger W) (fmt : String) (env : CallEnv) :=
  l.deliverRecordToWriter FATAL fmt env

/-- The loop `for _, w := range logger.writers { if err := w.Write(r); err != nil
{ log.Println(err) } }`, from the sink of index `i` on. -/
def writeAll {W : Type} (ops : WriterOps W) (r : Record) : Nat → List W → List W × List Event
  | _, [] => ([], [])
  | i, w :: ws =>
    let res := ops.Write w r
    let rest := writeAll ops r (i + 1) ws
    (res.1 :: rest.1,
      Event.Write i r :: (match res.2 with
        | some err => [Event.Println err]
        | none => []) ++ rest.2)

/-- The loop that calls `Flush` on every sink that is a `Flusher` and prints
the error of a failed call, from the sink of index `i` on. -/
def flushAll {W : Type} (ops : WriterOps W) : Nat → List W → List W × List Event
  | _, [] => ([], [])
  | i, w :: ws =>
    let rest := flushAll ops (i + 1) ws
    match ops.Flush w with
    | none => (w :: rest.1, rest.2)
    | some (w1, err) =>
      (w1 :: rest.1,
        Event.Flush i :: (match err with
          | some e => [Event.Println e]
          | none => []) ++ rest.2)

/-- The loop that calls `Rotate` on every sink that is a `Rotater` and prints
the error of a failed call, from the sink of index `i` on. -/
def rotateAll {W : Type} (ops : WriterOps W) : Nat → List W → List W × List Event
  | _, [] => ([], [])
  | i, w :: ws =>
    let rest := rotateAll ops (i + 1) ws
    match ops.Rotate w with
    | none => (w :: rest.1, rest.2)
    | some (w1, err) =>
      (w1 :: rest.1,
        Event.Rotate i :: (match err with
          | some e => [Event.Println e]
          | none => []) ++ rest.2)

/-- Where the goroutine that runs `boostrapLogWriter` stands: at the first
receive (before the timers exist), in the `for`/`select` loop, or returned. -/
inductive WorkerPC where
  | first
  | loop
  | exited
  deriving DecidableEq, Repr

/-- The case a `select` of the worker takes. -/
inductive Select where
  | tunnel
  | flushTimer
  | rotateTimer
  deriving DecidableEq, Repr

/-- One step of `boostrapLogWriter` on a non-nil logger: the worker at `pc`
takes the case `sel`. `none` when that case cannot be taken there: a receive on
an open and empty `tunnel` blocks, the timers do not exist before the loop, and
nothing runs after the return. -/
def boostrapLogWriter {W : Type} (ops : WriterOps W) (logger : Logger W) (pc : WorkerPC)
    (sel : Select) : Option (Logger W × WorkerPC × List Event) :=
  match pc, sel with
  | .first, .tunnel =>
    match logger.tunnel with
    | [] =>
      if logger.tunnelClosed then
        some ({ logger with c := logger.c ++ [true] }, .exited, [Event.Done])
      else none
    | r :: rest =>
      let res := writeAll ops r 0 logger.writers
      some ({ logger with tunnel := rest, writers := res.1 }, .loop, res.2)
  | .loop, .tunnel =>
    match logger.tunnel with
    | [] =>
      if logger.tunnelClosed then
        some ({ logger with c := logger.c ++ [true] }, .exited, [Event.Done])
      else none
    | r :: rest =>
      let res := writeAll ops r 0 logger.writers
      some ({ logger with tunnel := rest, writers := res.1, recordPool := r :: logger.recordPool },
        .loop, res.2 ++ [Event.Put r])
  | .loop, .flushTimer =>
    let res := flushAll ops 0 logger.writers
    some ({ logger with writers := res.1 }, .loop, res.2)
  | .loop, .rotateTimer =>
    let res := rotateAll ops 0 logger.writers
    some ({ logger with writers := res.1 }, .loop, res.2)
  | _, _ => none

/-- First statement of `Logger.Close`, the `close(l.tunnel)`; `none` is the
panic of closing a closed channel. -/
def Logger.closeTunnel {W : Type} (l : Logger W) : Option (Logger W × List Event) :=
  if l.tunnelClosed then none
  else some ({ l with tunnelClosed := true }, [Event.CloseTunnel])

/-- Rest of `Logger.Close`: the receive `<-l.c`, then `Flush` on every sink
that is a `Flusher`. `none` while `c` is empty (the receive blocks). -/
def Logger.closeWait {W : Type} (ops : WriterOps W) (l : Logger W) :
    Option (Logger W × List Event) :=
  match l.c with
  | [] => none
  | _ :: rest =>
    let res := flushAll ops 0 l.writers
    some ({ l with c := rest, writers := res.1 }, res.2 ++ [Event.CloseReturn])

/-! ## A logger with its worker and its callers -/

/-- A `Logger`, the goroutine `go boostrapLogWriter(l)` started for it and the
events seen so far, oldest first. -/
structure System (W : Type) where
  logger : Logger W
  worker : WorkerPC
  trace : List Event

/-- What can happen next to a `System`: a caller makes a leveled call, a
caller enters `Close` (closes `tunnel`), that caller gets through the rest of
`Close`, or the worker takes a case of its `select`. -/
inductive Action where
  | log (level : Int) (format : String) (env : CallEnv)
  | closeTunnel
  | closeWait
  | worker (sel : Select)

/-- One action on a `System`; `none` when the action cannot take place in
that state (it blocks or panics). -/
def System.step {W : Type} (ops : WriterOps W) (s : System W) : Action → Option (System W)
  | .log level format env =>
    match s.logger.deliverRecordToWriter level format env with
    | none => none
    | some (l, evs) => some { s with logger := l, trace := s.trace ++ evs }
  | .closeTunnel =>
    match s.logger.closeTunnel with
    | none => none
    | some (l, evs) => some { s with logger := l, trace := s.trace ++ evs }
  | .closeWait =>
    match s.logger.closeWait ops with
    | none => none
    | some (l, evs) => some { s with logger := l, trace := s.trace ++ evs }
  | .worker sel =>
    match boostrapLogWriter ops s.logger s.worker sel with
    | none => none
    | some (l, pc, evs) => some { logger := l, worker := pc, trace := s.trace ++ evs }

/-- A sequence of actions, one after the other. -/
def System.run {W : Type} (ops : WriterOps W) (s : System W) : List Action → Option (System W)
  | [] => some s
  | a :: as =>
    match s.step ops a with
    | none => none
    | some s1 => s1.run ops as

/-- A logger as `NewLogger` builds it and its worker, once the sinks `ws` are
registered and `SetLevel lvl` and `SetLayout layout` are done, before any
leveled call. -/
def System.start {W : Type} (ws : List W) (lvl : Int) (layout : String) : System W where
  logger := { Logger.fresh W with writers := ws, level := lvl, layout := layout }
  worker := .first
  trace := []

/-- The records sent on `tunnel`, in the order of the sends. -/
def sentRecords (tr : List Event) : List Record :=
  tr.filterMap fun e => match e with
    | .Send r => some r
    | _ => none

/-- The records `Write` was called with on the sink of index `i`, in the order
of the calls. -/
def writesTo (i : Nat) (tr : List Event) : List Record :=
  tr.filterMap fun e => match e with
    | .Write j r => if j = i then some r else none
    | _ => none

/-- The records put back into the pool, in the order of the calls. -/
def putRecords (tr : List Event) : List Record :=
  tr.filterMap fun e => match e with
    | .Put r => some r
    | _ => none

/-- The sinks `Write` was called on, with the record of the call, in the order
of the calls. -/
def writeCalls (tr : List Event) : List (Nat × Record) :=
  tr.filterMap fun e => match e with
    | .Write j r => some (j, r)
    | _ => none

/-- The callers' part of a schedule: the actions that are not the worker's. -/
def callerActions (as : List Action) : List Action :=
  as.filter fun a => match a with
    | .worker _ => false
    | _ => true

/-- A caller's action is a leveled call. -/
def Action.isLog : Action → Bool
  | .log _ _ _ => true
  | _ => false

/-- The worker drains the queue: `n` times the receive case. -/
def drain (n : Nat) : List Action := List.replicate n (Action.worker Select.tunnel)

/-- The sinks `Flush` was called on, in the order of the calls. -/
def flushCalls (tr : List Event) : List Nat :=
  tr.filterMap fun e => match e with
    | .Flush i => some i
    | _ => none

/-- What holds of a `System` with `n` registered sinks at every moment of a run
from `System.start`: no sink is added or dropped; on every sink, the records
written followed by the records still queued are the records sent; a value
waits in `c` only once the worker has returned; the worker returns only on a
closed and drained queue; and once it has returned, its signal is in `c` until
`Close` takes it. -/
structure System.Inv {W : Type} (n : Nat) (s : System W) : Prop where
  len : s.logger.writers.length = n
  writes : ∀ i, i < n → writesTo i s.trace ++ s.logger.tunnel = sentRecords s.trace
  c_exited : s.logger.c ≠ [] → s.worker = .exited
  exited_drained : s.worker = .exited → s.logger.tunnel = [] ∧ s.logger.tunnelClosed = true
  exited_c : s.worker = .exited → s.logger.c ≠ [] ∨ Event.CloseReturn ∈ s.trace

/-! ## What a run does to the sinks -/

/-- A call of the logger on one sink. -/
inductive SinkCall where
  | Write (r : Record)
  | Flush
  | Rotate
  deriving DecidableEq, Repr

/-- The calls made on the sink of index `i`, in the order of the calls. -/
def callsOn (i : Nat) (tr : List Event) : List SinkCall :=
  tr.filterMap fun e => match e with
    | .Write j r => if j = i then some (.Write r) else none
    | .Flush j => if j = i then some .Flush else none
    | .Rotate j => if j = i then some .Rotate else none
    | _ => none

/-- The record of a `Write` call, `none` for the other calls. -/
def SinkCall.record : SinkCall → Option Record
  | .Write r => some r
  | _ => none

/-- The errors handed to `log.Println`, in the order of the calls. -/
def printed (tr : List Event) : List String :=
  tr.filterMap fun e => match e with
    | .Println err => some err
    | _ => none

/-- The sink as `Write(r)` leaves it. -/
def written {W : Type} (ops : WriterOps W) (r : Record) (w : W) : W := (ops.Write w r).1

/-- The sink as `Flush()` leaves it; a sink that is no `Flusher` is left alone. -/
def flushed {W : Type} (ops : WriterOps W) (w : W) : W :=
  match ops.Flush w with
  | some (w1, _) => w1
  | none => w

/-- The sink as `Rotate()` leaves it; a sink that is no `Rotater` is left alone. -/
def rotated {W : Type} (ops : WriterOps W) (w : W) : W :=
  match ops.Rotate w with
  | some (w1, _) => w1
  | none => w

/-- The error `Flush()` returns on a sink that is a `Flusher`. -/
def flushError {W : Type} (ops : WriterOps W) (w : W) : Option String :=
  match ops.Flush w with
  | some (_, err) => err
  | none => none

/-- The error `Rotate()` returns on a sink that is a `Rotater`. -/
def rotateError {W : Type} (ops : WriterOps W) (w : W) : Option String :=
  match ops.Rotate w with
  | some (_, err) => err
  | none => none

/-- The sink after one call. -/
def SinkCall.apply {W : Type} (ops : WriterOps W) (w : W) : SinkCall → W
  | .Write r => written ops r w
  | .Flush => flushed ops w
  | .Rotate => rotated ops w

/-- The sink after a sequence of calls, made one after the other. -/
def applyCalls {W : Type} (ops : WriterOps W) (w : W) (calls : List SinkCall) : W :=
  calls.foldl (SinkCall.apply ops) w

/-- What the spec asks of the worker for the records `rs` of the queue: every
record in turn is written to every sink, in the order of registration; a failed
write is reported and stops neither the remaining sinks nor the remaining
records. Gives the sinks at the end and the errors reported, in order. -/
def deliveredInOrder {W : Type} (ops : WriterOps W) : List W → List Record → List W × List String
  | ws, [] => (ws, [])
  | ws, r :: rs =>
    ((deliveredInOrder ops (ws.map (written ops r)) rs).1,
      (ws.filterMap fun w => (ops.Write w r).2)
        ++ (deliveredInOrder ops (ws.map (written ops r)) rs).2)

/-- The sinks of a `System` are the sinks `ws` it was started with, each after
the calls that the trace has for it: no call is recorded that was not made on
the sink, and none was made that is not recorded. -/
def System.Tracks {W : Type} (ops : WriterOps W) (ws : List W) (s : System W) : Prop :=
  ∀ i w0, ws[i]? = some w0 →
    s.logger.writers[i]? = some (applyCalls ops w0 (callsOn i s.trace))

/-! ## The package-level default logger -/

/-- The package variables `logger_default` and `takeup` with the `Logger`
objects built so far. A `*Logger` is the index of the object in `loggers` (the
order of construction), nil is `none`; `workers` lists the loggers for which
`go boostrapLogWriter(l)` was executed. -/
structure Globals (W : Type) where
  logger_default : Option Nat
  takeup : Bool
  loggers : List (Logger W)
  workers : List Nat

/-- The package variables when the program starts. -/
def Globals.initial (W : Type) : Globals W where
  logger_default := none
  takeup := false
  loggers := []
  workers := []

/-- The `NewLogger`: hands out the default logger when there is one that is
not taken up, else builds a `Logger` and starts its worker. Gives the new
globals and the pointer returned. -/
def NewLogger {W : Type} (g : Globals W) : Globals W × Nat :=
  match g.logger_default with
  | some p =>
    if g.takeup = false then ({ g with takeup := true }, p)
    else
      ({ g with loggers := g.loggers ++ [Logger.fresh W],
                workers := g.workers ++ [g.loggers.length] }, g.loggers.length)
  | none =>
    ({ g with loggers := g.loggers ++ [Logger.fresh W],
              workers := g.workers ++ [g.loggers.length] }, g.loggers.length)

/-- The `defaultLoggerInit`. -/
def defaultLoggerInit {W : Type} (g : Globals W) : Globals W :=
  if g.takeup = false then
    let res := NewLogger g
    { res.1 with logger_default := some res.2 }
  else g

/-- How a package-level call ends. -/
inductive Outcome where
  | returned
  | panicked
  deriving DecidableEq, Repr

/-- A method of `logger_default` applied in place: the object the pointer
designates is replaced by what the method makes of it. A panic of the method,
or of the dereference of a nil or dangling pointer, leaves the objects as they
were. -/
def Globals.onDefault {W : Type} (g : Globals W) (f : Logger W → Option (Logger W)) :
    Globals W × Outcome :=
  match g.logger_default with
  | none => (g, .panicked)
  | some p =>
    match g.loggers[p]? with
    | none => (g, .panicked)
    | some l =>
      match f l with
      | none => (g, .panicked)
      | some l1 => ({ g with loggers := g.loggers.set p l1 }, .returned)

def SetLevel {W : Type} (g : Globals W) (lvl : Int) : Globals W × Outcome :=
  (defaultLoggerInit g).onDefault fun l => some { l with level := lvl }

def SetLayout {W : Type} (g : Globals W) (layout : String) : Globals W × Outcome :=
  (defaultLoggerInit g).onDefault fun l => some { l with layout := layout }

def Trace {W : Type} (g : Globals W) (fmt : String) (env : CallEnv) : Globals W × Outcome :=
  (defaultLoggerInit g).onDefault fun l => (l.deliverRecordToWriter TRACE fmt env).map (·.1)

def Debug {W : Type} (g : Globals W) (fmt : String) (env : CallEnv) : Globals W × Outcome :=
  (defaultLoggerInit g).onDefault fun l => (l.deliverRecordToWriter DEBUG fmt env).map (·.1)

def Warn {W : Type} (g : Globals W) (fmt : String) (env : CallEnv) : Globals W × Outcome :=
  (defaultLoggerInit g).onDefault fun l => (l.deliverRecordToWriter WARNING fmt env).map (·.1)

def Info {W : Type} (g : Globals W) (fmt : String) (env : CallEnv) : Globals W × Outcome :=
  (defaultLoggerInit g).onDefault fun l => (l.deliverRecordToWriter INFO fmt env).map (·.1)

def Error {W : Type} (g : Globals W) (fmt : String) (env : CallEnv) : Globals W × Outcome :=
  (defaultLoggerInit g).onDefault fun l => (l.deliverRecordToWriter ERROR fmt env).map (·.1)

def Fatal {W : Type} (g : Globals W) (fmt : String) (env : CallEnv) : Globals W × Outcome :=
  (defaultLoggerInit g).onDefault fun l => (l.deliverRecordToWriter FATAL fmt env).map (·.1)

def Register {W : Type} (ops : WriterOps W) (g : Globals W) (w : W) : Globals W × Outcome :=
  (defaultLoggerInit g).onDefault fun l => l.Register ops w

/-- A call of a package-level function other than `Close`. -/
inductive FacadeCall (W : Type) where
  | SetLevel (lvl : Int)
  | SetLayout (layout : String)
  | Trace (fmt : String) (env : CallEnv)
  | Debug (fmt : String) (env : CallEnv)
  | Info (fmt : String) (env : CallEnv)
  | Warn (fmt : String) (env : CallEnv)
  | Error (fmt : String) (env : CallEnv)
  | Fatal (fmt : String) (env : CallEnv)
  | Register (w : W)

/-- The call `c` made on the globals `g`. -/
def FacadeCall.exec {W : Type} (ops : WriterOps W) (g : Globals W) :
    FacadeCall W → Globals W × Outcome
  | .SetLevel lvl => GinLogger.SetLevel g lvl
  | .SetLayout layout => GinLogger.SetLayout g layout
  | .Trace fmt env => GinLogger.Trace g fmt env
  | .Debug fmt env => GinLogger.Debug g fmt env
  | .Info fmt env => GinLogger.Info g fmt env
  | .Warn fmt env => GinLogger.Warn g fmt env
  | .Error fmt env => GinLogger.Error g fmt env
  | .Fatal fmt env => GinLogger.Fatal g fmt env
  | .Register w => GinLogger.Register ops g w

/-- A sequence of package-level calls, one after the other, a panicking call
being recovered from. Gives the globals at the end and, for every call, the
`Logger` it worked on: the value of `logger_default` after the
`defaultLoggerInit` that opens the call. -/
def runFacade {W : Type} (ops : WriterOps W) (g : Globals W) :
    List (FacadeCall W) → Globals W × List (Option Nat)
  | [] => (g, [])
  | c :: cs =>
    let rest := runFacade ops (c.exec ops g).1 cs
    (rest.1, (defaultLoggerInit g).logger_default :: rest.2)

/-! ## `common/log/config.go` -/

/-- The `LogConfFileWriter` struct. -/
structure LogConfFileWriter where
  On : Bool
  LogPath : String
  RotateLogPath : String
  WfLogPath : String
  RotateWfLogPath : String
  deriving DecidableEq, Repr

/-- The `LogConfConsoleWriter` struct. -/
structure LogConfConsoleWriter where
  On : Bool
  Color : Bool
  deriving DecidableEq, Repr

/-- The `LogConfig` struct. -/
structure LogConfig where
  Level : String
  FW : LogConfFileWriter
  CW : LogConfConsoleWriter
  deriving DecidableEq, Repr

/-- Modelled from the spec: the type `FileWriter` of the file sink, which
`config.go` uses and which is declared elsewhere in the package. A file sink has
a base path, a
pattern for the names of rotated files and a level window `[floor, ceil]`;
`opened` tells that `Init` has opened the file, `lines` is what was appended
since the last rotation and `rotated` what was moved away by rotations. -/
structure FileWriter where
  fileName : String
  pathPattern : String
  floor : Int
  ceil : Int
  opened : Bool
  lines : List String
  rotated : List String
  deriving DecidableEq, Repr

/-- Modelled from the spec: the type `ConsoleWriter` of the console sink, which
`config.go` uses and which is declared elsewhere in the package: a colour
switch and the lines written to the terminal. -/
structure ConsoleWriter where
  color : Bool
  out : List String
  deriving DecidableEq, Repr

/-- The two sinks of the package behind the `Writer` interface. -/
inductive Sink where
  | file (w : FileWriter)
  | console (w : ConsoleWriter)
  deriving DecidableEq, Repr

/-- Modelled from the spec: the constructor `NewFileWriter` of the file sink;
every field has the zero value of its type. -/
def NewFileWriter : FileWriter where
  fileName := ""
  pathPattern := ""
  floor := 0
  ceil := 0
  opened := false
  lines := []
  rotated := []

/-- Modelled from the spec: the setter `SetFileName` of the file sink. -/
def FileWriter.SetFileName (w : FileWriter) (name : String) : FileWriter :=
  { w with fileName := name }

/-- Modelled from the spec: the method `SetPathPattern` of the file sink
("configures the naming template used when rotating"). -/
def FileWriter.SetPathPattern (w : FileWriter) (pattern : String) : FileWriter :=
  { w with pathPattern := pattern }

/-- Modelled from the spec: the setter `SetLogLevelFloor` of the file sink. -/
def FileWriter.SetLogLevelFloor (w : FileWriter) (floor : Int) : FileWriter :=
  { w with floor := floor }

/-- Modelled from the spec: the setter `SetLogLevelCeil` of the file sink. -/
def FileWriter.SetLogLevelCeil (w : FileWriter) (ceil : Int) : FileWriter :=
  { w with ceil := ceil }

/-- Modelled from the spec: the constructor `NewConsoleWriter` of the console
sink. -/
def NewConsoleWriter : ConsoleWriter where
  color := false
  out := []

/-- Modelled from the spec: the setter `SetColor` of the console sink. -/
def ConsoleWriter.SetColor (w : ConsoleWriter) (color : Bool) : ConsoleWriter :=
  { w with color := color }

/-- The line of a record in both sinks: `[LEVEL][timestamp][file:line] message`
and a newline. -/
def recordLine (r : Record) : String := r.String.getD ""

/-- Modelled from the spec: the methods of the two sinks behind the interfaces
`Writer`, `Rotater` and `Flusher`. `Init` of a file sink opens the file at the base path and fails
when it cannot be opened (`canOpen` says which paths can); `Write` appends the
line of a record whose level is in `[floor, ceil]` and does nothing for any
other record; `Rotate` moves the content away and starts afresh; `Flush` keeps
the content. The console sink writes every record, has a `Flush` that does
nothing and no `Rotate`. -/
def sinkOps (canOpen : String → Bool) : WriterOps Sink where
  Init
    | .file w =>
      if canOpen w.fileName then (.file { w with opened := true }, none)
      else (.file w, some ("open " ++ w.fileName ++ " failed"))
    | .console w => (.console w, none)
  Write
    | .file w, r =>
      if w.floor ≤ r.level ∧ r.level ≤ w.ceil then
        (.file { w with lines := w.lines ++ [recordLine r] }, none)
      else (.file w, none)
    | .console w, r => (.console { w with out := w.out ++ [recordLine r] }, none)
  Flush
    | .file w => some (.file w, none)
    | .console w => some (.console w, none)
  Rotate
    | .file w => some (.file { w with lines := [], rotated := w.rotated ++ w.lines }, none)
    | .console _ => none

/-- The `SetupLogInstanceWithConf`. Gives the logger as the call leaves it
with the `error` returned (`none` is nil); the `none` of the whole result is a
panic of `Register`. -/
def SetupLogInstanceWithConf (canOpen : String → Bool) (lc : LogConfig) (logger : Logger Sink) :
    Option (Logger Sink × Option String) :=
  let afterFile : Option (Logger Sink) :=
    if lc.FW.On then
      let afterGeneral : Option (Logger Sink) :=
        if lc.FW.LogPath.length > 0 then
          let w := ((NewFileWriter.SetFileName lc.FW.LogPath).SetPathPattern
            lc.FW.RotateLogPath).SetLogLevelFloor TRACE
          let w := if lc.FW.WfLogPath.length > 0 then w.SetLogLevelCeil INFO
            else w.SetLogLevelCeil ERROR
          logger.Register (sinkOps canOpen) (.file w)
        else some logger
      afterGeneral.bind fun logger =>
        if lc.FW.WfLogPath.length > 0 then
          let wfw := (((NewFileWriter.SetFileName lc.FW.WfLogPath).SetPathPattern
            lc.FW.RotateWfLogPath).SetLogLevelFloor WARNING).SetLogLevelCeil ERROR
          logger.Register (sinkOps canOpen) (.file wfw)
        else some logger
    else some logger
  let afterConsole : Option (Logger Sink) :=
    afterFile.bind fun logger =>
      if lc.CW.On then
        logger.Register (sinkOps canOpen) (.console (NewConsoleWriter.SetColor lc.CW.Color))
      else some logger
  afterConsole.map fun logger =>
    if lc.Level = "trace" then (logger.SetLevel TRACE, none)
    else if lc.Level = "debug" then (logger.SetLevel DEBUG, none)
    else if lc.Level = "info" then (logger.SetLevel INFO, none)
    else if lc.Level = "warning" then (logger.SetLevel WARNING, none)
    else if lc.Level = "error" then (logger.SetLevel ERROR, none)
    else if lc.Level = "fatal" then (logger.SetLevel FATAL, none)
    else (logger, some "Invalid log level")

/-- The level window of a sink: the `[floor, ceil]` of a file sink; the console
sink has no window. -/
def Sink.window : Sink → Option (Int × Int)
  | .file w => some (w.floor, w.ceil)
  | .console _ => none

/-- A level is in the window `[floor, ceil]`. -/
def inWindow (win : Int × Int) (level : Int) : Prop := win.1 ≤ level ∧ level ≤ win.2

instance (win : Int × Int) (level : Int) : Decidable (inWindow win level) := by
  unfold inWindow; infer_instance

/-- The level names `log_level` may take. -/
def levelNames : List String := ["trace", "debug", "info", "warning", "error", "fatal"]

/-- The globals once the package-level functions have been used: one `Logger`
has been built and one worker started, and `logger_default` points to that
logger. -/
def Globals.Single {W : Type} (g : Globals W) : Prop :=
  g.loggers.length = 1 ∧ g.workers = [0] ∧ g.logger_default = some 0

/-! ## Sample inputs -/

/-- What a call at `main.go:12` reads on 14 November 2023, 22:13:20 UTC. -/
def sampleEnv : CallEnv where
  sprintf := "listening on :8080"
  sprint := ":8080"
  caller := some ("main.go", 12)
  now := ⟨1700000000, 0⟩
  nowFormat := fun _ => "2023/11/14 22:13:20"

/-- A file sink for `app.log` with the window `TRACE..ERROR` and a console
sink, both initialised. -/
def sampleSinks : List Sink :=
  [.file { NewFileWriter with fileName := "app.log", floor := TRACE, ceil := ERROR,
                              opened := true },
   .console NewConsoleWriter]

/-- A run with two calls and a `Close`: the worker writes the first record,
the timers tick while the second record and the closing of the queue wait, then
the worker drains the queue and returns. -/
def sampleSchedule : List Action :=
  [.log INFO "listening on %s" sampleEnv, .worker .tunnel, .log ERROR "" sampleEnv,
   .closeTunnel, .worker .flushTimer, .worker .rotateTimer, .worker .tunnel, .worker .tunnel,
   .closeWait]


/-- A sink that keeps the records written to it, and that fails every `Write`
and every `Flush` when its disk is broken (the flag). -/
def flakyOps : WriterOps (Bool × List Record) where
  Init w := (w, none)
  Write w r := if w.1 then (w, some "write failed: disk full") else ((w.1, w.2 ++ [r]), none)
  Flush w := some (w, if w.1 then some "flush failed: disk full" else none)
  Rotate _ := none

/-- Two records of a queue. -/
def sampleQueue : List Record :=
  [{ time := "2023/11/14 22:13:20", code := "main.go:12", info := "listening", level := INFO },
   { time := "2023/11/14 22:13:21", code := "main.go:30", info := "bind failed", level := ERROR }]

/-! # Properties -/

/-! ## Lemmas on the formatting helpers -/

theorem isLowerHex_digitChar (d : Nat) (h : d < 16) : isLowerHex (Nat.digitChar d) = true := by
  interval_cases d <;> decide

theorem isLowerHex_toDigitsCore (f : Nat) : ∀ (n : Nat) (ds : List Char),
    (∀ c ∈ ds, isLowerHex c = true) → ∀ c ∈ Nat.toDigitsCore 16 f n ds, isLowerHex c = true := by
  induction f with
  | zero => intro n ds h; simpa [Nat.toDigitsCore] using h
  | succ f ih =>
    intro n ds h
    have hd : isLowerHex (Nat.digitChar (n % 16)) = true :=
      isLowerHex_digitChar _ (Nat.mod_lt _ (by decide))
    have hcons : ∀ c ∈ Nat.digitChar (n % 16) :: ds, isLowerHex c = true := by
      intro c hc
      rcases List.mem_cons.mp hc with rfl | hc
      · exact hd
      · exact h c hc
    simp only [Nat.toDigitsCore]
    split
    · exact hcons
    · exact ih _ _ hcons

theorem isLowerHex_toDigits (n : Nat) : ∀ c ∈ Nat.toDigits 16 n, isLowerHex c = true :=
  isLowerHex_toDigitsCore _ _ _ (by simp)

theorem toDigits_length_le (n e : Nat) (h : n < 16 ^ e) (he : 0 < e) :
    (Nat.toDigits 16 n).length ≤ e :=
  Nat.toDigitsCore_length 16 (by decide) (n + 1) n e h he

theorem fmtHex_length (w n : Nat) (h : n < 16 ^ w) (hw : 0 < w) : (fmtHex w n).length = w := by
  have := toDigits_length_le n w h hw
  simp only [fmtHex, padZero, String.length, List.length_append, List.length_replicate]
  omega

theorem fmtHex_isLowerHex (w n : Nat) : ∀ c ∈ (fmtHex w n).data, isLowerHex c = true := by
  intro c hc
  simp only [fmtHex, padZero, List.mem_append, List.mem_replicate] at hc
  rcases hc with ⟨_, rfl⟩ | hc
  · decide
  · exact isLowerHex_toDigits n c hc

theorem hexEncode_length (bs : List Nat) : (hexEncode bs).length = 2 * bs.length := by
  induction bs with
  | nil => rfl
  | cons b bs ih =>
    simp only [hexEncode, String.length, List.flatMap_cons, List.length_append, List.length_cons,
      List.length_nil] at ih ⊢
    omega

theorem hexEncode_isLowerHex (bs : List Nat) : ∀ c ∈ (hexEncode bs).data, isLowerHex c = true := by
  intro c hc
  simp only [hexEncode, List.mem_flatMap, List.mem_cons, List.mem_singleton] at hc
  obtain ⟨b, _, hc⟩ := hc
  simp only [List.not_mem_nil, or_false] at hc
  rcases hc with rfl | rfl
  · exact isLowerHex_digitChar _ (Nat.mod_lt _ (by decide))
  · exact isLowerHex_digitChar _ (Nat.mod_lt _ (by decide))

theorem To4_length (ip ip4 : IP) (h : To4 ip = some ip4) : ip4.length = 4 := by
  unfold To4 at h
  split at h
  · cases h; assumption
  · split at h
    · cases h
      rename_i h16
      simp [List.length_drop, h16.1]
    · cases h


theorem toUint32_lt (x : Int) : toUint32 x < 16 ^ 8 := by
  unfold toUint32
  have h1 : 0 ≤ x % 2 ^ 32 := Int.emod_nonneg _ (by norm_num)
  have h2 : x % 2 ^ 32 < 2 ^ 32 := Int.emod_lt_of_pos _ (by norm_num)
  omega

theorem low16_lt (x : Int) : low16 x < 16 ^ 4 := by
  unfold low16
  have h1 : 0 ≤ x % 2 ^ 16 := Int.emod_nonneg _ (by norm_num)
  have h2 : x % 2 ^ 16 < 2 ^ 16 := Int.emod_lt_of_pos _ (by norm_num)
  omega

theorem traceIdAddr_length (ip : String)
    (hip : ParseIP ip = none ∨ ∃ netIP, ParseIP ip = some netIP ∧ To4 netIP ≠ none) :
    (traceIdAddr ip).length = 8 := by
  unfold traceIdAddr
  rcases hip with h | ⟨netIP, h, h4⟩
  · rw [h]; rfl
  · rw [h]
    cases h4' : To4 netIP with
    | none => exact absurd h4' h4
    | some ip4 =>
      simp only [h4', Option.getD_some, hexEncode_length, To4_length netIP ip4 h4']

theorem traceIdAddr_isLowerHex (ip : String) :
    ∀ c ∈ (traceIdAddr ip).data, isLowerHex c = true := by
  unfold traceIdAddr
  cases ParseIP ip with
  | none => decide
  | some netIP => exact hexEncode_isLowerHex _

/-- C4 (amended). For every address text that `net.ParseIP` rejects or that
denotes an IPv4 address, every clock reading, every process id and every draw
below `2^24`, `calcTraceId` returns 32 characters of `[0-9a-f]`: 8 for the
address (`00000000` when the text is rejected, else the hexadecimal bytes of the
IPv4 address), 8 for the low 32 bits of the unix seconds, 4 for the low 16 bits
of the unix nanoseconds, 4 for the low 16 bits of the process id, 6 for the draw
and the tag `b0`. -/
theorem calcTraceId_format (ip : String) (now : Time) (pid : Int) (rnd : Nat)
    (hip : ParseIP ip = none ∨ ∃ netIP, ParseIP ip = some netIP ∧ To4 netIP ≠ none)
    (hrnd : rnd < 2 ^ 24) :
    ∃ addr : String,
      calcTraceId ip now pid rnd =
        addr ++ fmtHex 8 ((now.Unix % 2 ^ 32).toNat) ++ fmtHex 4 ((now.UnixNano % 2 ^ 16).toNat)
          ++ fmtHex 4 ((pid % 2 ^ 16).toNat) ++ fmtHex 6 rnd ++ "b0" ∧
      addr.length = 8 ∧
      (ParseIP ip = none → addr = "00000000") ∧
      (∀ netIP ip4, ParseIP ip = some netIP → To4 netIP = some ip4 → addr = hexEncode ip4) ∧
      (fmtHex 8 ((now.Unix % 2 ^ 32).toNat)).length = 8 ∧
      (fmtHex 4 ((now.UnixNano % 2 ^ 16).toNat)).length = 4 ∧
      (fmtHex 4 ((pid % 2 ^ 16).toNat)).length = 4 ∧
      (fmtHex 6 rnd).length = 6 ∧
      (calcTraceId ip now pid rnd).length = 32 ∧
      ∀ c ∈ (calcTraceId ip now pid rnd).data, isLowerHex c = true := by
  have h8 := fmtHex_length 8 _ (toUint32_lt now.Unix) (by decide)
  have h4a := fmtHex_length 4 _ (low16_lt now.UnixNano) (by decide)
  have h4b := fmtHex_length 4 _ (low16_lt pid) (by decide)
  have h6 := fmtHex_length 6 rnd (by norm_num; omega) (by decide)
  have hmod : toUint32 now.Unix % 2 ^ 32 = toUint32 now.Unix :=
    Nat.mod_eq_of_lt (by have := toUint32_lt now.Unix; norm_num at this ⊢; exact this)
  have hdef : calcTraceId ip now pid rnd =
      traceIdAddr ip ++ fmtHex 8 (toUint32 now.Unix) ++ fmtHex 4 (low16 now.UnixNano)
        ++ fmtHex 4 (low16 pid) ++ fmtHex 6 rnd ++ "b0" := by
    simp only [calcTraceId, hmod]
  refine ⟨traceIdAddr ip, hdef, traceIdAddr_length ip hip, ?_, ?_, h8, h4a, h4b, h6, ?_, ?_⟩
  · intro h; simp only [traceIdAddr, h]
  · intro netIP ip4 h h4; simp only [traceIdAddr, h, h4, Option.getD_some]
  · rw [hdef]
    simp only [String.length_append, traceIdAddr_length ip hip, h8, h4a, h4b, h6]
    rfl
  · rw [hdef]
    intro c hc
    simp only [String.data_append, List.mem_append] at hc
    rcases hc with ((((hc | hc) | hc) | hc) | hc) | hc
    · exact traceIdAddr_isLowerHex ip c hc
    · exact fmtHex_isLowerHex _ _ c hc
    · exact fmtHex_isLowerHex _ _ c hc
    · exact fmtHex_isLowerHex _ _ c hc
    · exact fmtHex_isLowerHex _ _ c hc
    · revert c; decide


/-- C4, witness: the address text `192.168.1.10`. -/
theorem calcTraceId_format_witness :
    calcTraceId "192.168.1.10" ⟨1700000000, 123456789⟩ 4242 0xabcdef
        = "c0a8010a6553f100cd151092abcdefb0" ∧
      (calcTraceId "192.168.1.10" ⟨1700000000, 123456789⟩ 4242 0xabcdef).length = 32 := by
  obtain ⟨_, _, _, _, _, _, _, _, _, hlen, _⟩ :=
    calcTraceId_format "192.168.1.10" ⟨1700000000, 123456789⟩ 4242 0xabcdef
      (Or.inr ⟨[0, 0, 0, 0, 0, 0, 0, 0, 0, 0, 255, 255, 192, 168, 1, 10], by decide, by decide⟩)
      (by decide)
  exact ⟨by decide, hlen⟩

/-- C4, counterexample: for the address text `2001:db8::1`, an IPv6 literal,
`net.ParseIP` gives an address whose `To4` is nil, the address part is empty and
the identifier has 24 characters, not 32. -/
theorem calcTraceId_ipv6_counterexample :
    ParseIP "2001:db8::1" = some [32, 1, 13, 184, 0, 0, 0, 0, 0, 0, 0, 0, 0, 0, 0, 1] ∧
      To4 [32, 1, 13, 184, 0, 0, 0, 0, 0, 0, 0, 0, 0, 0, 0, 1] = none ∧
      calcTraceId "2001:db8::1" ⟨1700000000, 123456789⟩ 4242 0xabcdef
        = "6553f100cd151092abcdefb0" ∧
      (calcTraceId "2001:db8::1" ⟨1700000000, 123456789⟩ 4242 0xabcdef).length ≠ 32 := by
  decide

theorem bigEndian_lt (b0 b1 b2 b3 : Nat) (h0 : b0 < 256) (h1 : b1 < 256) (h2 : b2 < 256)
    (h3 : b3 < 256) : b0 * 2 ^ 24 + b1 * 2 ^ 16 + b2 * 2 ^ 8 + b3 < 2 ^ 32 := by
  norm_num
  omega

/-- C5. For every local IPv4 address with bytes `b0.b1.b2.b3`, read as the
big-endian 32-bit integer `a`, every clock reading with unix seconds `t` and
every 32-bit draw `r`, `NewSpanId` returns the 8 zero-padded hexadecimal digits
of `a XOR (t mod 2^32)` followed by the 8 zero-padded hexadecimal digits of `r`:
16 characters of `[0-9a-f]`. -/
theorem NewSpanId_format (localIP : IP) (b0 b1 b2 b3 : Nat) (now : Time) (rnd : Nat)
    (hip : To4 localIP = some [b0, b1, b2, b3])
    (h0 : b0 < 256) (h1 : b1 < 256) (h2 : b2 < 256) (h3 : b3 < 256) (hrnd : rnd < 2 ^ 32) :
    NewSpanId localIP now rnd =
        some (fmtHex 8 ((b0 * 2 ^ 24 + b1 * 2 ^ 16 + b2 * 2 ^ 8 + b3) ^^^ (now.Unix % 2 ^ 32).toNat)
          ++ fmtHex 8 rnd) ∧
      (fmtHex 8 ((b0 * 2 ^ 24 + b1 * 2 ^ 16 + b2 * 2 ^ 8 + b3)
        ^^^ (now.Unix % 2 ^ 32).toNat)).length = 8 ∧
      (fmtHex 8 rnd).length = 8 ∧
      ∀ s, NewSpanId localIP now rnd = some s →
        s.length = 16 ∧ ∀ c ∈ s.data, isLowerHex c = true := by
  have hx : (b0 * 2 ^ 24 + b1 * 2 ^ 16 + b2 * 2 ^ 8 + b3) ^^^ (now.Unix % 2 ^ 32).toNat
      < 16 ^ 8 := by
    have ha := bigEndian_lt b0 b1 b2 b3 h0 h1 h2 h3
    have ht : (now.Unix % 2 ^ 32).toNat < 2 ^ 32 := by
      have := toUint32_lt now.Unix
      unfold toUint32 at this
      norm_num at this ⊢
      exact this
    have := Nat.xor_lt_two_pow ha ht
    norm_num at this ⊢
    exact this
  have hl1 := fmtHex_length 8 _ hx (by decide)
  have hl2 := fmtHex_length 8 rnd (by norm_num at hrnd ⊢; exact hrnd) (by decide)
  have hdef : NewSpanId localIP now rnd =
      some (fmtHex 8 ((b0 * 2 ^ 24 + b1 * 2 ^ 16 + b2 * 2 ^ 8 + b3)
        ^^^ (now.Unix % 2 ^ 32).toNat) ++ fmtHex 8 rnd) := by
    simp only [NewSpanId, hip, Option.getD_some, bigEndianUint32, toUint32]
  refine ⟨hdef, hl1, hl2, ?_⟩
  intro s hs
  rw [hdef] at hs
  cases hs
  refine ⟨by simp only [String.length_append, hl1, hl2], ?_⟩
  intro c hc
  simp only [String.data_append, List.mem_append] at hc
  rcases hc with hc | hc
  · exact fmtHex_isLowerHex _ _ c hc
  · exact fmtHex_isLowerHex _ _ c hc

/-- C5, witness: the local address `192.168.1.10`. -/
theorem NewSpanId_format_witness :
    NewSpanId [192, 168, 1, 10] ⟨1700000000, 123456789⟩ 12345 = some "a5fbf00a00003039" ∧
      ∀ s, NewSpanId [192, 168, 1, 10] ⟨1700000000, 123456789⟩ 12345 = some s →
        s.length = 16 ∧ ∀ c ∈ s.data, isLowerHex c = true :=
  ⟨by decide,
    (NewSpanId_format [192, 168, 1, 10] 192 168 1 10 ⟨1700000000, 123456789⟩ 12345
      (by decide) (by decide) (by decide) (by decide) (by decide) (by decide)).2.2.2⟩

/-- C6 (the code at the failing input). On a machine without a non-loopback
IPv4 address `GetLocalIPs` gives the empty list, the initialisation of the
package variable `LocalIP` panics on the index `[0]`, and no trace id is ever
produced; the fallback that `calcTraceId` has for an address text that does not
parse, such as the text `<nil>` of the nil address, is not reached. -/
theorem LocalIP_panics_without_address (interfaceAddr : Except String (List Addr))
    (h : GetLocalIPs interfaceAddr = []) (now : Time) (pid : Int) (rnd : Nat) :
    LocalIP interfaceAddr = none ∧
      startAndGetTraceId interfaceAddr now pid rnd = none ∧
      traceIdAddr (IPString []) = "00000000" := by
  have hl : LocalIP interfaceAddr = none := by simp [LocalIP, h]
  refine ⟨hl, ?_, by decide⟩
  simp only [startAndGetTraceId, hl]

/-- C6, witness: the interface lookup fails, or it gives the loopback address
only. -/
theorem LocalIP_panics_without_address_witness :
    GetLocalIPs (.error "route ip+net: no such network interface") = [] ∧
      LocalIP (.error "route ip+net: no such network interface") = none ∧
      GetLocalIPs (.ok [.ipNet [127, 0, 0, 1] [255, 0, 0, 0]]) = [] ∧
      LocalIP (.ok [.ipNet [127, 0, 0, 1] [255, 0, 0, 0]]) = none :=
  ⟨by decide,
    (LocalIP_panics_without_address (.error "route ip+net: no such network interface")
      (by decide) ⟨0, 0⟩ 0 0).1,
    by decide,
    (LocalIP_panics_without_address (.ok [.ipNet [127, 0, 0, 1] [255, 0, 0, 0]])
      (by decide) ⟨0, 0⟩ 0 0).1⟩


/-! ## Lemmas on the loops over the sinks -/

section Loops

variable {W : Type} (ops : WriterOps W)

theorem writesTo_append (i : Nat) (a b : List Event) :
    writesTo i (a ++ b) = writesTo i a ++ writesTo i b := by
  simp [writesTo, List.filterMap_append]

theorem sentRecords_append (a b : List Event) :
    sentRecords (a ++ b) = sentRecords a ++ sentRecords b := by
  simp [sentRecords, List.filterMap_append]

theorem putRecords_append (a b : List Event) :
    putRecords (a ++ b) = putRecords a ++ putRecords b := by
  simp [putRecords, List.filterMap_append]

theorem writeCalls_append (a b : List Event) :
    writeCalls (a ++ b) = writeCalls a ++ writeCalls b := by
  simp [writeCalls, List.filterMap_append]

theorem writeAll_length (r : Record) :
    ∀ (ws : List W) (i : Nat), (writeAll ops r i ws).1.length = ws.length := by
  intro ws
  induction ws with
  | nil => intro i; rfl
  | cons w ws ih => intro i; simp [writeAll, ih]

theorem flushAll_length : ∀ (ws : List W) (i : Nat), (flushAll ops i ws).1.length = ws.length := by
  intro ws
  induction ws with
  | nil => intro i; rfl
  | cons w ws ih =>
    intro i
    simp only [flushAll]
    split <;> simp [ih]

theorem rotateAll_length :
    ∀ (ws : List W) (i : Nat), (rotateAll ops i ws).1.length = ws.length := by
  intro ws
  induction ws with
  | nil => intro i; rfl
  | cons w ws ih =>
    intro i
    simp only [rotateAll]
    split <;> simp [ih]

theorem writeCalls_writeAll (r : Record) :
    ∀ (ws : List W) (i : Nat),
      writeCalls (writeAll ops r i ws).2 = (List.range' i ws.length).map fun k => (k, r) := by
  intro ws
  induction ws with
  | nil => intro i; rfl
  | cons w ws ih =>
    intro i
    have h := ih (i + 1)
    simp only [writeAll, List.length_cons, List.range'_succ, List.map_cons]
    cases (ops.Write w r).2 <;>
      simp [writeCalls, List.filterMap_cons, List.filterMap_append] at h ⊢ <;> exact h

theorem writesTo_writeAll (r : Record) :
    ∀ (ws : List W) (i j : Nat),
      writesTo j (writeAll ops r i ws).2 = if i ≤ j ∧ j < i + ws.length then [r] else [] := by
  intro ws
  induction ws with
  | nil => intro i j; simp [writeAll, writesTo]
  | cons w ws ih =>
    intro i j
    have h := ih (i + 1) j
    have hcons : writesTo j (writeAll ops r i (w :: ws)).2
        = (if i = j then [r] else []) ++ writesTo j (writeAll ops r (i + 1) ws).2 := by
      simp only [writeAll]
      cases (ops.Write w r).2 <;>
        by_cases hij : i = j <;>
        simp [writesTo, List.filterMap_cons, List.filterMap_append, hij]
    rw [hcons, h]
    by_cases hij : i = j
    · subst hij
      simp
    · simp only [hij, if_false, List.nil_append, List.length_cons]
      by_cases hc : i + 1 ≤ j ∧ j < i + 1 + ws.length
      · rw [if_pos hc, if_pos]; omega
      · rw [if_neg hc, if_neg]; omega

theorem sentRecords_writeAll (r : Record) :
    ∀ (ws : List W) (i : Nat), sentRecords (writeAll ops r i ws).2 = [] := by
  intro ws
  induction ws with
  | nil => intro i; rfl
  | cons w ws ih =>
    intro i
    have h := ih (i + 1)
    simp only [writeAll]
    cases (ops.Write w r).2 <;>
      simp [sentRecords, List.filterMap_cons, List.filterMap_append] at h ⊢ <;> exact h

theorem putRecords_writeAll (r : Record) :
    ∀ (ws : List W) (i : Nat), putRecords (writeAll ops r i ws).2 = [] := by
  intro ws
  induction ws with
  | nil => intro i; rfl
  | cons w ws ih =>
    intro i
    have h := ih (i + 1)
    simp only [writeAll]
    cases (ops.Write w r).2 <;>
      simp [putRecords, List.filterMap_cons, List.filterMap_append] at h ⊢ <;> exact h

theorem flushAll_quiet :
    ∀ (ws : List W) (i : Nat),
      sentRecords (flushAll ops i ws).2 = [] ∧ (∀ j, writesTo j (flushAll ops i ws).2 = []) ∧
        Event.CloseReturn ∉ (flushAll ops i ws).2 := by
  intro ws
  induction ws with
  | nil => intro i; simp [flushAll, sentRecords, writesTo]
  | cons w ws ih =>
    intro i
    obtain ⟨h1, h2, h3⟩ := ih (i + 1)
    simp only [flushAll]
    cases hF : ops.Flush w with
    | none => exact ⟨h1, h2, h3⟩
    | some res =>
      obtain ⟨w1, err⟩ := res
      cases err <;>
        simp [sentRecords, writesTo, List.filterMap_cons, List.filterMap_append] at h1 h2 h3 ⊢ <;>
        exact ⟨h1, h2, h3⟩

theorem rotateAll_quiet :
    ∀ (ws : List W) (i : Nat),
      sentRecords (rotateAll ops i ws).2 = [] ∧ (∀ j, writesTo j (rotateAll ops i ws).2 = []) ∧
        Event.CloseReturn ∉ (rotateAll ops i ws).2 := by
  intro ws
  induction ws with
  | nil => intro i; simp [rotateAll, sentRecords, writesTo]
  | cons w ws ih =>
    intro i
    obtain ⟨h1, h2, h3⟩ := ih (i + 1)
    simp only [rotateAll]
    cases hF : ops.Rotate w with
    | none => exact ⟨h1, h2, h3⟩
    | some res =>
      obtain ⟨w1, err⟩ := res
      cases err <;>
        simp [sentRecords, writesTo, List.filterMap_cons, List.filterMap_append] at h1 h2 h3 ⊢ <;>
        exact ⟨h1, h2, h3⟩

theorem writeAll_no_closeReturn (r : Record) :
    ∀ (ws : List W) (i : Nat), Event.CloseReturn ∉ (writeAll ops r i ws).2 := by
  intro ws
  induction ws with
  | nil => intro i; simp [writeAll]
  | cons w ws ih =>
    intro i
    have h := ih (i + 1)
    simp only [writeAll]
    cases (ops.Write w r).2 <;> simp [h]

theorem flush_mem_flushAll :
    ∀ (ws : List W) (i k : Nat) (w : W), ws[k]? = some w → (ops.Flush w).isSome = true →
      Event.Flush (i + k) ∈ (flushAll ops i ws).2 := by
  intro ws
  induction ws with
  | nil => intro i k w h; simp at h
  | cons w0 ws ih =>
    intro i k w h hF
    cases k with
    | zero =>
      simp only [List.getElem?_cons_zero, Option.some.injEq] at h
      subst h
      simp only [flushAll]
      cases hw : ops.Flush w0 with
      | none => simp [hw] at hF
      | some res => simp
    | succ k =>
      simp only [List.getElem?_cons_succ] at h
      have := ih (i + 1) k w h hF
      have hik : i + (k + 1) = i + 1 + k := by omega
      rw [hik]
      simp only [flushAll]
      cases hw : ops.Flush w0 with
      | none => exact this
      | some res => simp [this]

end Loops


/-! ## Lemmas on the steps of a system -/

section Steps

variable {W : Type} (ops : WriterOps W)

theorem deliver_cases (l : Logger W) (level : Int) (format : String) (env : CallEnv) :
    (level < l.level ∧ l.deliverRecordToWriter level format env = some (l, [])) ∨
    (l.level ≤ level ∧ l.tunnelClosed = true ∧
      l.deliverRecordToWriter level format env = none) ∨
    (l.level ≤ level ∧ l.tunnelClosed = false ∧
      ∃ l1 r, l.deliverRecordToWriter level format env = some (l1, [Event.Get, Event.Send r]) ∧
        r.level = level ∧ l1.tunnel = l.tunnel ++ [r] ∧ l1.writers = l.writers ∧
        l1.c = l.c ∧ l1.tunnelClosed = false ∧ l1.level = l.level ∧ l1.layout = l.layout) := by
  by_cases hlt : level < l.level
  · left
    exact ⟨hlt, by simp [Logger.deliverRecordToWriter, hlt]⟩
  · right
    have hle : l.level ≤ level := not_lt.mp hlt
    cases hc : l.tunnelClosed with
    | true =>
      left
      refine ⟨hle, rfl, ?_⟩
      by_cases ht : env.now.Unix = l.lastTime <;>
        simp [Logger.deliverRecordToWriter, hlt, hc, ht]
    | false =>
      right
      refine ⟨hle, rfl, ?_⟩
      by_cases ht : env.now.Unix = l.lastTime <;>
        simp [Logger.deliverRecordToWriter, hlt, hc, ht] <;>
        exact ⟨_, _, ⟨rfl, rfl⟩, rfl, rfl, rfl, rfl, rfl, rfl, rfl⟩

/-- Every way a step of the worker can go. -/
theorem worker_cases (l : Logger W) (pc : WorkerPC) (sel : Select) :
    boostrapLogWriter ops l pc sel = none ∨
    (sel = .tunnel ∧ pc ≠ .exited ∧ l.tunnel = [] ∧ l.tunnelClosed = true ∧
      boostrapLogWriter ops l pc sel
        = some ({ l with c := l.c ++ [true] }, .exited, [Event.Done])) ∨
    (sel = .tunnel ∧ pc ≠ .exited ∧ ∃ r rest, l.tunnel = r :: rest ∧
      boostrapLogWriter ops l pc sel
        = some ({ l with tunnel := rest, writers := (writeAll ops r 0 l.writers).1,
                         recordPool := if pc = .first then l.recordPool
                           else r :: l.recordPool },
            .loop, (writeAll ops r 0 l.writers).2 ++ if pc = .first then [] else [Event.Put r])) ∨
    (sel = .flushTimer ∧ pc = .loop ∧
      boostrapLogWriter ops l pc sel
        = some ({ l with writers := (flushAll ops 0 l.writers).1 }, .loop,
            (flushAll ops 0 l.writers).2)) ∨
    (sel = .rotateTimer ∧ pc = .loop ∧
      boostrapLogWriter ops l pc sel
        = some ({ l with writers := (rotateAll ops 0 l.writers).1 }, .loop,
            (rotateAll ops 0 l.writers).2)) := by
  cases pc <;> cases sel
  case first.tunnel =>
    cases htun : l.tunnel with
    | nil =>
      cases hc : l.tunnelClosed with
      | false => left; simp [boostrapLogWriter, htun, hc]
      | true => right; left; simp [boostrapLogWriter, htun, hc]
    | cons r rest =>
      right; right; left
      exact ⟨rfl, by decide, r, rest, rfl, by simp [boostrapLogWriter, htun]⟩
  case loop.tunnel =>
    cases htun : l.tunnel with
    | nil =>
      cases hc : l.tunnelClosed with
      | false => left; simp [boostrapLogWriter, htun, hc]
      | true => right; left; simp [boostrapLogWriter, htun, hc]
    | cons r rest =>
      right; right; left
      exact ⟨rfl, by decide, r, rest, rfl, by simp [boostrapLogWriter, htun]⟩
  case loop.flushTimer => right; right; right; left; exact ⟨rfl, rfl, rfl⟩
  case loop.rotateTimer => right; right; right; right; exact ⟨rfl, rfl, rfl⟩
  all_goals left; rfl

theorem run_append (s : System W) (as bs : List Action) :
    s.run ops (as ++ bs) = (s.run ops as).bind fun s1 => s1.run ops bs := by
  induction as generalizing s with
  | nil => rfl
  | cons a as ih =>
    simp only [List.cons_append, System.run]
    cases s.step ops a with
    | none => rfl
    | some s1 => exact ih s1

theorem inv_start (ws : List W) (lvl : Int) (layout : String) :
    (System.start ws lvl layout).Inv ws.length where
  len := rfl
  writes := by intro i _; rfl
  c_exited := by intro h; exact absurd rfl h
  exited_drained := by intro h; cases h
  exited_c := by intro h; cases h

theorem inv_step {n : Nat} {s s1 : System W} (a : Action) (hinv : s.Inv n)
    (hstep : s.step ops a = some s1) : s1.Inv n := by
  obtain ⟨hlen, hwr, hce, hed, hec⟩ := hinv
  cases a with
  | log level format env =>
    simp only [System.step] at hstep
    rcases deliver_cases s.logger level format env with ⟨_, h⟩ | ⟨_, _, h⟩ |
      ⟨_, hopen, l1, r, h, _, htun, hws, hc, _, _, _⟩
    · rw [h] at hstep
      cases hstep
      exact ⟨hlen, by simpa using hwr, hce, hed, by simpa using hec⟩
    · rw [h] at hstep
      cases hstep
    · rw [h] at hstep
      cases hstep
      refine ⟨by simpa [hws] using hlen, ?_, by simpa [hc] using hce, ?_, ?_⟩
      · intro i hi
        have := hwr i hi
        simp only [writesTo_append, sentRecords_append, htun]
        simp only [writesTo, sentRecords, List.filterMap_cons, List.filterMap_nil] at this ⊢
        rw [List.append_nil, ← List.append_assoc, this]
      · intro hex
        have := (hed hex).2
        rw [hopen] at this
        cases this
      · intro hex
        have := (hed hex).2
        rw [hopen] at this
        cases this
  | closeTunnel =>
    simp only [System.step, Logger.closeTunnel] at hstep
    split at hstep
    · cases hstep
    · rename_i l evs heq
      split at heq
      · cases heq
      · cases heq
        cases hstep
        refine ⟨hlen, ?_, hce, ?_, ?_⟩
        · intro i hi
          have := hwr i hi
          simpa [writesTo_append, sentRecords_append, writesTo, sentRecords] using this
        · intro hex
          exact ⟨(hed hex).1, rfl⟩
        · intro hex
          rcases hec hex with h | h
          · exact Or.inl h
          · exact Or.inr (List.mem_append_left _ h)
  | closeWait =>
    simp only [System.step, Logger.closeWait] at hstep
    split at hstep
    · cases hstep
    · rename_i l evs heq
      split at heq
      · cases heq
      · rename_i b rest hc
        cases heq
        cases hstep
        obtain ⟨q1, q2, _⟩ := flushAll_quiet ops s.logger.writers 0
        have hne : s.logger.c ≠ [] := by rw [hc]; exact List.cons_ne_nil _ _
        refine ⟨by simpa [flushAll_length] using hlen, ?_, fun _ => hce hne, hed, ?_⟩
        · intro i hi
          have := hwr i hi
          simp only [writesTo_append, sentRecords_append, q1, q2 i]
          simpa [writesTo, sentRecords] using this
        · intro _
          exact Or.inr (by simp)
  | worker sel =>
    simp only [System.step] at hstep
    rcases worker_cases ops s.logger s.worker sel with h | ⟨_, _, htun, hclosed, h⟩ |
      ⟨_, hpc, r, rest, htun, h⟩ | ⟨_, hpc, h⟩ | ⟨_, hpc, h⟩
    · rw [h] at hstep
      cases hstep
    · rw [h] at hstep
      cases hstep
      refine ⟨hlen, ?_, fun _ => rfl, fun _ => ⟨htun, hclosed⟩, fun _ => Or.inl (by simp)⟩
      intro i hi
      have := hwr i hi
      simpa [writesTo_append, sentRecords_append, writesTo, sentRecords] using this
    · rw [h] at hstep
      cases hstep
      refine ⟨by simpa [writeAll_length] using hlen, ?_, ?_, (fun h => by cases h),
        (fun h => by cases h)⟩
      · intro i hi
        have := hwr i hi
        rw [htun] at this
        have hw := writesTo_writeAll ops r s.logger.writers 0 i
        rw [if_pos ⟨Nat.zero_le _, by omega⟩] at hw
        have hp : writesTo i (if s.worker = .first then [] else [Event.Put r]) = [] := by
          split <;> rfl
        have hp2 : sentRecords (if s.worker = .first then [] else [Event.Put r]) = [] := by
          split <;> rfl
        simp only [writesTo_append, sentRecords_append, sentRecords_writeAll, hw, hp, hp2,
          List.append_nil, List.append_assoc, List.singleton_append]
        exact this
      · intro hne
        exact absurd (hce hne) hpc
    · rw [h] at hstep
      cases hstep
      obtain ⟨q1, q2, _⟩ := flushAll_quiet ops s.logger.writers 0
      refine ⟨by simpa [flushAll_length] using hlen, ?_, ?_, (fun h => by cases h),
        (fun h => by cases h)⟩
      · intro i hi
        have := hwr i hi
        simp only [writesTo_append, sentRecords_append, q1, q2 i, List.append_nil]
        exact this
      · intro hne
        have := hce hne
        rw [hpc] at this
        cases this
    · rw [h] at hstep
      cases hstep
      obtain ⟨q1, q2, _⟩ := rotateAll_quiet ops s.logger.writers 0
      refine ⟨by simpa [rotateAll_length] using hlen, ?_, ?_, (fun h => by cases h),
        (fun h => by cases h)⟩
      · intro i hi
        have := hwr i hi
        simp only [writesTo_append, sentRecords_append, q1, q2 i, List.append_nil]
        exact this
      · intro hne
        have := hce hne
        rw [hpc] at this
        cases this

theorem inv_run {n : Nat} (as : List Action) :
    ∀ {s s1 : System W}, s.Inv n → s.run ops as = some s1 → s1.Inv n := by
  induction as with
  | nil => intro s s1 hinv h; cases h; exact hinv
  | cons a as ih =>
    intro s s1 hinv h
    simp only [System.run] at h
    cases hs : s.step ops a with
    | none => rw [hs] at h; cases h
    | some s2 =>
      rw [hs] at h
      exact ih (inv_step ops a hinv hs) h

end Steps


/-! ## Runs of a system -/

section Runs

variable {W : Type} (ops : WriterOps W)

theorem step_closed_mono {s s1 : System W} (a : Action) (hstep : s.step ops a = some s1)
    (hc : s.logger.tunnelClosed = true ∨ a = .closeTunnel) : s1.logger.tunnelClosed = true := by
  cases a with
  | log level format env =>
    simp only [System.step] at hstep
    have hc : s.logger.tunnelClosed = true := by
      rcases hc with h | h
      · exact h
      · cases h
    rcases deliver_cases s.logger level format env with ⟨_, h⟩ | ⟨_, _, h⟩ |
      ⟨_, hopen, _⟩
    · rw [h] at hstep; cases hstep; exact hc
    · rw [h] at hstep; cases hstep
    · rw [hopen] at hc; cases hc
  | closeTunnel =>
    simp only [System.step, Logger.closeTunnel] at hstep
    split at hstep
    · cases hstep
    · rename_i l evs heq
      split at heq
      · cases heq
      · cases heq; cases hstep; rfl
  | closeWait =>
    have hc : s.logger.tunnelClosed = true := by
      rcases hc with h | h
      · exact h
      · cases h
    simp only [System.step, Logger.closeWait] at hstep
    split at hstep
    · cases hstep
    · rename_i l evs heq
      split at heq
      · cases heq
      · cases heq; cases hstep; exact hc
  | worker sel =>
    have hc : s.logger.tunnelClosed = true := by
      rcases hc with h | h
      · exact h
      · cases h
    simp only [System.step] at hstep
    rcases worker_cases ops s.logger s.worker sel with h | ⟨_, _, _, _, h⟩ |
      ⟨_, _, r, rest, _, h⟩ | ⟨_, _, h⟩ | ⟨_, _, h⟩ <;>
      rw [h] at hstep <;> cases hstep <;> exact hc

theorem run_closed_mono (as : List Action) :
    ∀ {s s1 : System W}, s.run ops as = some s1 → s.logger.tunnelClosed = true →
      s1.logger.tunnelClosed = true := by
  induction as with
  | nil => intro s s1 h hc; cases h; exact hc
  | cons a as ih =>
    intro s s1 h hc
    simp only [System.run] at h
    cases hs : s.step ops a with
    | none => rw [hs] at h; cases h
    | some s2 =>
      rw [hs] at h
      exact ih h (step_closed_mono ops a hs (Or.inl hc))

theorem step_no_closeReturn {s s1 : System W} (a : Action) (hstep : s.step ops a = some s1)
    (ha : a ≠ .closeWait) (htr : Event.CloseReturn ∉ s.trace) :
    Event.CloseReturn ∉ s1.trace := by
  cases a with
  | log level format env =>
    simp only [System.step] at hstep
    rcases deliver_cases s.logger level format env with ⟨_, h⟩ | ⟨_, _, h⟩ |
      ⟨_, _, l1, r, h, _⟩
    · rw [h] at hstep; cases hstep; simpa using htr
    · rw [h] at hstep; cases hstep
    · rw [h] at hstep; cases hstep; simpa using htr
  | closeTunnel =>
    simp only [System.step, Logger.closeTunnel] at hstep
    split at hstep
    · cases hstep
    · rename_i l evs heq
      split at heq
      · cases heq
      · cases heq; cases hstep; simpa using htr
  | closeWait => exact absurd rfl ha
  | worker sel =>
    simp only [System.step] at hstep
    rcases worker_cases ops s.logger s.worker sel with h | ⟨_, _, _, _, h⟩ |
      ⟨_, _, r, rest, _, h⟩ | ⟨_, _, h⟩ | ⟨_, _, h⟩
    · rw [h] at hstep; cases hstep
    · rw [h] at hstep; cases hstep; simpa using htr
    · rw [h] at hstep; cases hstep
      have := writeAll_no_closeReturn ops r s.logger.writers 0
      intro hmem
      simp only [List.mem_append] at hmem
      rcases hmem with hm | hm | hm
      · exact htr hm
      · exact this hm
      · split at hm <;> simp at hm
    · rw [h] at hstep; cases hstep
      have := (flushAll_quiet ops s.logger.writers 0).2.2
      intro hmem
      simp only [List.mem_append] at hmem
      rcases hmem with hm | hm
      · exact htr hm
      · exact this hm
    · rw [h] at hstep; cases hstep
      have := (rotateAll_quiet ops s.logger.writers 0).2.2
      intro hmem
      simp only [List.mem_append] at hmem
      rcases hmem with hm | hm
      · exact htr hm
      · exact this hm

theorem run_no_closeReturn (as : List Action) :
    ∀ {s s1 : System W}, s.run ops as = some s1 → Action.closeWait ∉ as →
      Event.CloseReturn ∉ s.trace → Event.CloseReturn ∉ s1.trace := by
  induction as with
  | nil => intro s s1 h _ htr; cases h; exact htr
  | cons a as ih =>
    intro s s1 h hno htr
    simp only [System.run] at h
    cases hs : s.step ops a with
    | none => rw [hs] at h; cases h
    | some s2 =>
      rw [hs] at h
      have ha : a ≠ .closeWait := fun e => hno (e ▸ List.mem_cons_self _ _)
      exact ih h (fun hm => hno (List.mem_cons_of_mem _ hm)) (step_no_closeReturn ops a hs ha htr)

/-- On a closed queue the worker is never blocked: it receives what is left,
one record a step, then returns and leaves its signal in `c`. -/
theorem drain_closed : ∀ (k : Nat) (s : System W), s.logger.tunnel.length = k →
    s.logger.tunnelClosed = true → s.worker ≠ .exited →
    ∃ s1, s.run ops (drain (k + 1)) = some s1 ∧ s1.worker = .exited ∧ s1.logger.c ≠ [] := by
  intro k
  induction k with
  | zero =>
    intro s hk hc hpc
    have htun : s.logger.tunnel = [] := List.length_eq_zero.mp hk
    rcases worker_cases ops s.logger s.worker .tunnel with h | ⟨_, _, _, _, h⟩ |
      ⟨_, _, r, rest, h', _⟩ | ⟨h', _⟩ | ⟨h', _⟩
    · cases hw : s.worker <;> simp [boostrapLogWriter, hw, htun, hc] at h
      exact absurd hw hpc
    · refine ⟨{ logger := { s.logger with c := s.logger.c ++ [true] }, worker := .exited,
                trace := s.trace ++ [Event.Done] }, ?_, rfl, ?_⟩
      · simp only [drain, List.replicate, System.run, System.step, h]
      · simp
    · rw [htun] at h'; cases h'
    · cases h'
    · cases h'
  | succ k ih =>
    intro s hk hc hpc
    rcases worker_cases ops s.logger s.worker .tunnel with h | ⟨_, _, htun, _, _⟩ |
      ⟨_, _, r, rest, htun, h⟩ | ⟨h', _⟩ | ⟨h', _⟩
    · cases htun : s.logger.tunnel with
      | nil => rw [htun] at hk; cases hk
      | cons r rest =>
        cases hw : s.worker <;> simp [boostrapLogWriter, hw, htun] at h
        exact absurd hw hpc
    · rw [htun] at hk; cases hk
    · have hk' : rest.length = k := by
        rw [htun] at hk
        simpa using hk
      obtain ⟨s2, hs2, ht2, hc2, hp2⟩ : ∃ s2, s.step ops (.worker .tunnel) = some s2 ∧
          s2.logger.tunnel = rest ∧ s2.logger.tunnelClosed = s.logger.tunnelClosed ∧
          s2.worker = .loop := by
        simp [System.step, h]
      obtain ⟨s1, hrun, hex, hne⟩ := ih s2 (by rw [ht2]; exact hk') (by rw [hc2]; exact hc)
        (by rw [hp2]; decide)
      refine ⟨s1, ?_, hex, hne⟩
      have hd : drain (k + 1 + 1) = Action.worker Select.tunnel :: drain (k + 1) := rfl
      rw [hd]
      simp only [System.run, hs2]
      exact hrun
    · cases h'
    · cases h'

theorem run_exited_workers (as : List Action) (s s1 : System W) (hex : s.worker = .exited)
    (hw : callerActions as = []) (hrun : s.run ops as = some s1) : as = [] := by
  cases as with
  | nil => rfl
  | cons a as =>
    cases a with
    | worker sel =>
      simp only [System.run, System.step] at hrun
      have : boostrapLogWriter ops s.logger s.worker sel = none := by
        rw [hex]; cases sel <;> rfl
      rw [this] at hrun
      cases hrun
    | log level format env => simp [callerActions] at hw
    | closeTunnel => simp [callerActions] at hw
    | closeWait => simp [callerActions] at hw

theorem callerActions_split (as xs : List Action) (y : Action)
    (h : callerActions as = xs ++ [y]) :
    ∃ as1 as2, as = as1 ++ y :: as2 ∧ callerActions as1 = xs ∧ callerActions as2 = [] := by
  unfold callerActions at h
  obtain ⟨l1, l2, rfl, h1, h2⟩ := List.filter_eq_append_iff.mp h
  obtain ⟨m1, m2, rfl, hm1, _, hm2⟩ := List.filter_eq_cons_iff.mp h2
  refine ⟨l1 ++ m1, m2, by simp, ?_, hm2⟩
  unfold callerActions
  rw [List.filter_append, h1, List.filter_eq_nil_iff.mpr hm1, List.append_nil]

theorem mem_callerActions (as : List Action) (a : Action) (ha : a ∈ as)
    (hc : ∀ sel, a ≠ .worker sel) : a ∈ callerActions as := by
  unfold callerActions
  rw [List.mem_filter]
  refine ⟨ha, ?_⟩
  cases a with
  | worker sel => exact absurd rfl (hc sel)
  | log level format env => rfl
  | closeTunnel => rfl
  | closeWait => rfl

end Runs


/-! ## What the loops do to the sinks -/

section SinkStates

variable {W : Type} (ops : WriterOps W)

theorem callsOn_append (i : Nat) (a b : List Event) :
    callsOn i (a ++ b) = callsOn i a ++ callsOn i b := by
  simp [callsOn, List.filterMap_append]

theorem printed_append (a b : List Event) : printed (a ++ b) = printed a ++ printed b := by
  simp [printed, List.filterMap_append]

theorem applyCalls_append (w : W) (a b : List SinkCall) :
    applyCalls ops w (a ++ b) = applyCalls ops (applyCalls ops w a) b := by
  simp [applyCalls, List.foldl_append]

theorem writesTo_eq_callsOn (i : Nat) (tr : List Event) :
    writesTo i tr = (callsOn i tr).filterMap SinkCall.record := by
  induction tr with
  | nil => rfl
  | cons e tr ih =>
    have hw : writesTo i (e :: tr) = writesTo i [e] ++ writesTo i tr :=
      writesTo_append i [e] tr
    have hc : callsOn i (e :: tr) = callsOn i [e] ++ callsOn i tr := callsOn_append i [e] tr
    rw [hw, hc, List.filterMap_append, ih]
    congr 1
    cases e with
    | Write j r =>
      by_cases h : j = i <;> simp [writesTo, callsOn, SinkCall.record, List.filterMap_cons, h]
    | Flush j =>
      by_cases h : j = i <;> simp [writesTo, callsOn, SinkCall.record, List.filterMap_cons, h]
    | Rotate j =>
      by_cases h : j = i <;> simp [writesTo, callsOn, SinkCall.record, List.filterMap_cons, h]
    | Get => rfl
    | Send r => rfl
    | Println err => rfl
    | Put r => rfl
    | CloseTunnel => rfl
    | Done => rfl
    | CloseReturn => rfl

theorem mem_of_mem_printed (e : String) (tr : List Event) (h : e ∈ printed tr) :
    Event.Println e ∈ tr := by
  simp only [printed, List.mem_filterMap] at h
  obtain ⟨ev, hev, hm⟩ := h
  cases ev <;> simp at hm
  subst hm
  exact hev

theorem mem_of_mem_writeCalls (k : Nat) (r : Record) (tr : List Event)
    (h : (k, r) ∈ writeCalls tr) : Event.Write k r ∈ tr := by
  simp only [writeCalls, List.mem_filterMap] at h
  obtain ⟨ev, hev, hm⟩ := h
  cases ev <;> simp at hm
  obtain ⟨rfl, rfl⟩ := hm
  exact hev

theorem writeAll_states (r : Record) :
    ∀ (ws : List W) (k : Nat), (writeAll ops r k ws).1 = ws.map (written ops r) := by
  intro ws
  induction ws with
  | nil => intro k; rfl
  | cons w ws ih => intro k; simp [writeAll, ih, written]

theorem flushAll_states :
    ∀ (ws : List W) (k : Nat), (flushAll ops k ws).1 = ws.map (flushed ops) := by
  intro ws
  induction ws with
  | nil => intro k; rfl
  | cons w ws ih =>
    intro k
    simp only [flushAll, List.map_cons, flushed]
    cases ops.Flush w with
    | none => simp [ih, flushed]
    | some res => simp [ih, flushed]

theorem rotateAll_states :
    ∀ (ws : List W) (k : Nat), (rotateAll ops k ws).1 = ws.map (rotated ops) := by
  intro ws
  induction ws with
  | nil => intro k; rfl
  | cons w ws ih =>
    intro k
    simp only [rotateAll, List.map_cons, rotated]
    cases ops.Rotate w with
    | none => simp [ih, rotated]
    | some res => simp [ih, rotated]

theorem printed_writeAll (r : Record) :
    ∀ (ws : List W) (k : Nat),
      printed (writeAll ops r k ws).2 = ws.filterMap fun w => (ops.Write w r).2 := by
  intro ws
  induction ws with
  | nil => intro k; rfl
  | cons w ws ih =>
    intro k
    have h := ih (k + 1)
    simp only [writeAll, List.filterMap_cons]
    cases (ops.Write w r).2 <;>
      simp [printed, List.filterMap_cons, List.filterMap_append] at h ⊢ <;> exact h

theorem printed_flushAll :
    ∀ (ws : List W) (k : Nat), printed (flushAll ops k ws).2 = ws.filterMap (flushError ops) := by
  intro ws
  induction ws with
  | nil => intro k; rfl
  | cons w ws ih =>
    intro k
    have h := ih (k + 1)
    simp only [flushAll, List.filterMap_cons, flushError]
    cases ops.Flush w with
    | none => simpa using h
    | some res =>
      obtain ⟨w1, err⟩ := res
      cases err <;>
        simp [printed, List.filterMap_cons, List.filterMap_append] at h ⊢ <;> exact h

theorem printed_rotateAll :
    ∀ (ws : List W) (k : Nat),
      printed (rotateAll ops k ws).2 = ws.filterMap (rotateError ops) := by
  intro ws
  induction ws with
  | nil => intro k; rfl
  | cons w ws ih =>
    intro k
    have h := ih (k + 1)
    simp only [rotateAll, List.filterMap_cons, rotateError]
    cases ops.Rotate w with
    | none => simpa using h
    | some res =>
      obtain ⟨w1, err⟩ := res
      cases err <;>
        simp [printed, List.filterMap_cons, List.filterMap_append] at h ⊢ <;> exact h

theorem callsOn_writeAll (r : Record) :
    ∀ (ws : List W) (k i : Nat),
      callsOn i (writeAll ops r k ws).2
        = if k ≤ i ∧ i < k + ws.length then [SinkCall.Write r] else [] := by
  intro ws
  induction ws with
  | nil => intro k i; simp [writeAll, callsOn]
  | cons w ws ih =>
    intro k i
    have h := ih (k + 1) i
    have hcons : callsOn i (writeAll ops r k (w :: ws)).2
        = (if k = i then [SinkCall.Write r] else []) ++ callsOn i (writeAll ops r (k + 1) ws).2 := by
      simp only [writeAll]
      cases (ops.Write w r).2 <;>
        by_cases hki : k = i <;>
        simp [callsOn, List.filterMap_cons, List.filterMap_append, hki]
    rw [hcons, h]
    by_cases hki : k = i
    · subst hki
      simp
    · simp only [hki, if_false, List.nil_append, List.length_cons]
      by_cases hc : k + 1 ≤ i ∧ i < k + 1 + ws.length
      · rw [if_pos hc, if_pos]; omega
      · rw [if_neg hc, if_neg]; omega

theorem callsOn_flushAll :
    ∀ (ws : List W) (k : Nat),
      (∀ i, i < k → callsOn i (flushAll ops k ws).2 = []) ∧
      (∀ j, callsOn (k + j) (flushAll ops k ws).2 =
        match ws[j]? with
        | some w => if (ops.Flush w).isSome then [SinkCall.Flush] else []
        | none => []) := by
  intro ws
  induction ws with
  | nil => intro k; simp [flushAll, callsOn]
  | cons w ws ih =>
    intro k
    obtain ⟨ih1, ih2⟩ := ih (k + 1)
    have hcons : ∀ i, callsOn i (flushAll ops k (w :: ws)).2
        = (if k = i ∧ (ops.Flush w).isSome then [SinkCall.Flush] else [])
          ++ callsOn i (flushAll ops (k + 1) ws).2 := by
      intro i
      simp only [flushAll]
      cases ops.Flush w with
      | none => simp
      | some res =>
        obtain ⟨w1, err⟩ := res
        cases err <;> by_cases hki : k = i <;>
          simp [callsOn, List.filterMap_cons, List.filterMap_append, hki]
    constructor
    · intro i hi
      rw [hcons, ih1 i (by omega)]
      have : ¬ k = i := by omega
      simp [this]
    · intro j
      rw [hcons]
      cases j with
      | zero =>
        have h0 := ih1 k (by omega)
        simp [h0]
      | succ j =>
        have : k + (j + 1) = k + 1 + j := by omega
        rw [this, ih2 j]
        have hne : ¬ k = k + 1 + j := by omega
        simp [hne]

theorem callsOn_rotateAll :
    ∀ (ws : List W) (k : Nat),
      (∀ i, i < k → callsOn i (rotateAll ops k ws).2 = []) ∧
      (∀ j, callsOn (k + j) (rotateAll ops k ws).2 =
        match ws[j]? with
        | some w => if (ops.Rotate w).isSome then [SinkCall.Rotate] else []
        | none => []) := by
  intro ws
  induction ws with
  | nil => intro k; simp [rotateAll, callsOn]
  | cons w ws ih =>
    intro k
    obtain ⟨ih1, ih2⟩ := ih (k + 1)
    have hcons : ∀ i, callsOn i (rotateAll ops k (w :: ws)).2
        = (if k = i ∧ (ops.Rotate w).isSome then [SinkCall.Rotate] else [])
          ++ callsOn i (rotateAll ops (k + 1) ws).2 := by
      intro i
      simp only [rotateAll]
      cases ops.Rotate w with
      | none => simp
      | some res =>
        obtain ⟨w1, err⟩ := res
        cases err <;> by_cases hki : k = i <;>
          simp [callsOn, List.filterMap_cons, List.filterMap_append, hki]
    constructor
    · intro i hi
      rw [hcons, ih1 i (by omega)]
      have : ¬ k = i := by omega
      simp [this]
    · intro j
      rw [hcons]
      cases j with
      | zero =>
        have h0 := ih1 k (by omega)
        simp [h0]
      | succ j =>
        have : k + (j + 1) = k + 1 + j := by omega
        rw [this, ih2 j]
        have hne : ¬ k = k + 1 + j := by omega
        simp [hne]

theorem applyCalls_flush (w : W) :
    applyCalls ops w (if (ops.Flush w).isSome then [SinkCall.Flush] else []) = flushed ops w := by
  cases h : ops.Flush w with
  | none => simp [applyCalls, flushed, h]
  | some res => simp [applyCalls, SinkCall.apply]

theorem applyCalls_rotate (w : W) :
    applyCalls ops w (if (ops.Rotate w).isSome then [SinkCall.Rotate] else [])
      = rotated ops w := by
  cases h : ops.Rotate w with
  | none => simp [applyCalls, rotated, h]
  | some res => simp [applyCalls, SinkCall.apply]

end SinkStates

/-! ## The sinks along a run -/

section Tracking

variable {W : Type} (ops : WriterOps W)

theorem tracks_start (ws : List W) (lvl : Int) (layout : String) :
    (System.start ws lvl layout).Tracks ops ws := by
  intro i w0 h
  simpa [System.start, callsOn, applyCalls] using h

theorem tracks_quiet {ws0 : List W} {s s1 : System W} (evs : List Event)
    (ht : s.Tracks ops ws0) (hw : s1.logger.writers = s.logger.writers)
    (htr : s1.trace = s.trace ++ evs) (hq : ∀ i, callsOn i evs = []) : s1.Tracks ops ws0 := by
  intro i w0 h
  rw [hw, htr, callsOn_append, hq i, List.append_nil]
  exact ht i w0 h

theorem tracks_write {ws0 : List W} {s s1 : System W} (r : Record) (evs : List Event)
    (ht : s.Tracks ops ws0) (hw : s1.logger.writers = s.logger.writers.map (written ops r))
    (htr : s1.trace = s.trace ++ evs)
    (hq : ∀ i, i < s.logger.writers.length → callsOn i evs = [SinkCall.Write r]) :
    s1.Tracks ops ws0 := by
  intro i w0 h
  have hcur := ht i w0 h
  have hi : i < s.logger.writers.length := by
    rcases Nat.lt_or_ge i s.logger.writers.length with hlt | hge
    · exact hlt
    · rw [List.getElem?_eq_none hge] at hcur; cases hcur
  rw [hw, htr, callsOn_append, hq i hi, applyCalls_append, List.getElem?_map, hcur]
  rfl

theorem tracks_flush {ws0 : List W} {s s1 : System W} (evs : List Event)
    (ht : s.Tracks ops ws0) (hw : s1.logger.writers = s.logger.writers.map (flushed ops))
    (htr : s1.trace = s.trace ++ evs)
    (hq : ∀ i w, s.logger.writers[i]? = some w →
      callsOn i evs = if (ops.Flush w).isSome then [SinkCall.Flush] else []) :
    s1.Tracks ops ws0 := by
  intro i w0 h
  have hcur := ht i w0 h
  rw [hw, htr, callsOn_append, hq i _ hcur, applyCalls_append, List.getElem?_map, hcur,
    applyCalls_flush]
  rfl

theorem tracks_rotate {ws0 : List W} {s s1 : System W} (evs : List Event)
    (ht : s.Tracks ops ws0) (hw : s1.logger.writers = s.logger.writers.map (rotated ops))
    (htr : s1.trace = s.trace ++ evs)
    (hq : ∀ i w, s.logger.writers[i]? = some w →
      callsOn i evs = if (ops.Rotate w).isSome then [SinkCall.Rotate] else []) :
    s1.Tracks ops ws0 := by
  intro i w0 h
  have hcur := ht i w0 h
  rw [hw, htr, callsOn_append, hq i _ hcur, applyCalls_append, List.getElem?_map, hcur,
    applyCalls_rotate]
  rfl

theorem callsOn_flushAll_at (ws : List W) (i : Nat) (w : W) (h : ws[i]? = some w) :
    callsOn i (flushAll ops 0 ws).2 = if (ops.Flush w).isSome then [SinkCall.Flush] else [] := by
  have := (callsOn_flushAll ops ws 0).2 i
  rw [Nat.zero_add, h] at this
  exact this

theorem callsOn_rotateAll_at (ws : List W) (i : Nat) (w : W) (h : ws[i]? = some w) :
    callsOn i (rotateAll ops 0 ws).2
      = if (ops.Rotate w).isSome then [SinkCall.Rotate] else [] := by
  have := (callsOn_rotateAll ops ws 0).2 i
  rw [Nat.zero_add, h] at this
  exact this

theorem tracks_step {ws0 : List W} {s s1 : System W} (a : Action) (ht : s.Tracks ops ws0)
    (hstep : s.step ops a = some s1) : s1.Tracks ops ws0 := by
  cases a with
  | log level format env =>
    simp only [System.step] at hstep
    rcases deliver_cases s.logger level format env with ⟨_, h⟩ | ⟨_, _, h⟩ |
      ⟨_, _, l1, r, h, _, _, hws, _⟩
    · rw [h] at hstep; cases hstep
      exact tracks_quiet ops [] ht rfl rfl (fun _ => rfl)
    · rw [h] at hstep; cases hstep
    · rw [h] at hstep; cases hstep
      exact tracks_quiet ops [Event.Get, Event.Send r] ht hws rfl (fun _ => rfl)
  | closeTunnel =>
    simp only [System.step, Logger.closeTunnel] at hstep
    split at hstep
    · cases hstep
    · rename_i l evs heq
      split at heq
      · cases heq
      · cases heq; cases hstep
        exact tracks_quiet ops [Event.CloseTunnel] ht rfl rfl (fun _ => rfl)
  | closeWait =>
    simp only [System.step, Logger.closeWait] at hstep
    split at hstep
    · cases hstep
    · rename_i l evs heq
      split at heq
      · cases heq
      · cases heq; cases hstep
        refine tracks_flush ops ((flushAll ops 0 s.logger.writers).2 ++ [Event.CloseReturn]) ht
          (flushAll_states ops _ 0) rfl ?_
        intro i w hw
        rw [callsOn_append, callsOn_flushAll_at ops _ i w hw]
        simp [callsOn]
  | worker sel =>
    simp only [System.step] at hstep
    rcases worker_cases ops s.logger s.worker sel with h | ⟨_, _, _, _, h⟩ |
      ⟨_, _, r, rest, _, h⟩ | ⟨_, _, h⟩ | ⟨_, _, h⟩
    · rw [h] at hstep; cases hstep
    · rw [h] at hstep; cases hstep
      exact tracks_quiet ops [Event.Done] ht rfl rfl (fun _ => rfl)
    · rw [h] at hstep; cases hstep
      refine tracks_write ops r _ ht (writeAll_states ops r _ 0) rfl ?_
      intro i hi
      rw [callsOn_append, callsOn_writeAll, if_pos ⟨Nat.zero_le _, by omega⟩]
      split <;> simp [callsOn]
    · rw [h] at hstep; cases hstep
      exact tracks_flush ops _ ht (flushAll_states ops _ 0) rfl
        (fun i w hw => callsOn_flushAll_at ops _ i w hw)
    · rw [h] at hstep; cases hstep
      exact tracks_rotate ops _ ht (rotateAll_states ops _ 0) rfl
        (fun i w hw => callsOn_rotateAll_at ops _ i w hw)

theorem tracks_run {ws0 : List W} (as : List Action) :
    ∀ {s s1 : System W}, s.Tracks ops ws0 → s.run ops as = some s1 → s1.Tracks ops ws0 := by
  induction as with
  | nil => intro s s1 ht h; cases h; exact ht
  | cons a as ih =>
    intro s s1 ht h
    simp only [System.run] at h
    cases hs : s.step ops a with
    | none => rw [hs] at h; cases h
    | some s2 =>
      rw [hs] at h
      exact ih (tracks_step ops a ht hs) h

theorem deliveredInOrder_states : ∀ (rs : List Record) (ws : List W),
    (deliveredInOrder ops ws rs).1
      = ws.map fun w => rs.foldl (fun w r => (ops.Write w r).1) w := by
  intro rs
  induction rs with
  | nil => intro ws; simp [deliveredInOrder]
  | cons r rs ih =>
    intro ws
    simp only [deliveredInOrder, ih, List.map_map, List.foldl_cons]
    rfl

theorem drain_states : ∀ (rs : List Record) (s : System W),
    s.logger.tunnel = rs → s.worker ≠ .exited →
    ∃ s1, s.run ops (drain rs.length) = some s1 ∧
      s1.logger.writers = (deliveredInOrder ops s.logger.writers rs).1 ∧
      printed s1.trace = printed s.trace ++ (deliveredInOrder ops s.logger.writers rs).2 := by
  intro rs
  induction rs with
  | nil =>
    intro s _ _
    exact ⟨s, rfl, rfl, by simp [deliveredInOrder]⟩
  | cons r rest ih =>
    intro s htun hpc
    rcases worker_cases ops s.logger s.worker .tunnel with h | ⟨_, _, h', _⟩ |
      ⟨_, _, r', rest', htun', h⟩ | ⟨h', _⟩ | ⟨h', _⟩
    · cases hw : s.worker <;> simp [boostrapLogWriter, hw, htun] at h
      exact absurd hw hpc
    · rw [htun] at h'; cases h'
    · rw [htun] at htun'
      cases htun'
      obtain ⟨s2, hs2, ht2, hp2, hw2, htr2⟩ : ∃ s2, s.step ops (.worker .tunnel) = some s2 ∧
          s2.logger.tunnel = rest ∧ s2.worker = .loop ∧
          s2.logger.writers = s.logger.writers.map (written ops r) ∧
          s2.trace = s.trace ++ ((writeAll ops r 0 s.logger.writers).2
            ++ if s.worker = .first then [] else [Event.Put r]) := by
        simp [System.step, h, writeAll_states]
      obtain ⟨s1, hrun, hws, hpr⟩ := ih s2 ht2 (by rw [hp2]; decide)
      refine ⟨s1, ?_, ?_, ?_⟩
      · have hd : drain (r :: rest).length = Action.worker Select.tunnel :: drain rest.length :=
          rfl
        rw [hd]
        simp only [System.run, hs2]
        exact hrun
      · rw [hws, hw2]
        rfl
      · have hx : printed (if s.worker = .first then [] else [Event.Put r]) = [] := by
          split <;> rfl
        rw [hpr, htr2, hw2]
        simp only [printed_append, printed_writeAll, hx, List.append_nil, deliveredInOrder,
          List.append_assoc]
    · cases h'
    · cases h'

end Tracking

/-! ## The leveled calls -/

/-- C2 (amended). A leveled call below the threshold of the logger returns
with the logger as it was, every field included, and with no event: no record is
taken from the pool and none is sent. A call at or above the threshold on a
logger whose queue is not closed takes one record from the pool and sends exactly
one record, which carries the level of the call, at the back of the queue. On a
closed queue such a call panics. -/
theorem deliverRecordToWriter_threshold {W : Type} (l : Logger W) (level : Int)
    (format : String) (env : CallEnv) :
    (level < l.level → l.deliverRecordToWriter level format env = some (l, [])) ∧
    (l.level ≤ level → l.tunnelClosed = false →
      ∃ l1 r, l.deliverRecordToWriter level format env = some (l1, [Event.Get, Event.Send r]) ∧
        r.level = level ∧ l1.tunnel = l.tunnel ++ [r]) ∧
    (l.level ≤ level → l.tunnelClosed = true →
      l.deliverRecordToWriter level format env = none) := by
  rcases deliver_cases l level format env with ⟨hlt, h⟩ | ⟨hle, hc, h⟩ |
    ⟨hle, hc, l1, r, h, hr, htun, _⟩
  · exact ⟨fun _ => h, fun hle => absurd hlt (not_lt.mpr hle), fun hle => absurd hlt (not_lt.mpr hle)⟩
  · exact ⟨fun hlt => absurd hlt (not_lt.mpr hle), fun _ ho => (by rw [hc] at ho; cases ho),
      fun _ _ => h⟩
  · exact ⟨fun hlt => absurd hlt (not_lt.mpr hle), fun _ _ => ⟨l1, r, h, hr, htun⟩,
      fun _ ho => (by rw [hc] at ho; cases ho)⟩

/-- C2, witness: on a fresh logger (threshold `DEBUG`) a `Trace` call changes
nothing and an `Info` call sends one record of level `INFO`. -/
theorem deliverRecordToWriter_threshold_witness :
    (Logger.fresh Sink).Trace "boot %s"
        ⟨"boot ok", "ok", some ("main.go", 12), ⟨1700000000, 0⟩, fun _ => "2023/11/14 22:13:20"⟩
      = some (Logger.fresh Sink, []) ∧
    ∃ l1 r, (Logger.fresh Sink).Info "boot %s"
        ⟨"boot ok", "ok", some ("main.go", 12), ⟨1700000000, 0⟩, fun _ => "2023/11/14 22:13:20"⟩
      = some (l1, [Event.Get, Event.Send r]) ∧ r.level = INFO ∧
        l1.tunnel = (Logger.fresh Sink).tunnel ++ [r] :=
  ⟨(deliverRecordToWriter_threshold (Logger.fresh Sink) TRACE "boot %s"
      ⟨"boot ok", "ok", some ("main.go", 12), ⟨1700000000, 0⟩,
        fun _ => "2023/11/14 22:13:20"⟩).1 (by decide),
   (deliverRecordToWriter_threshold (Logger.fresh Sink) INFO "boot %s"
      ⟨"boot ok", "ok", some ("main.go", 12), ⟨1700000000, 0⟩,
        fun _ => "2023/11/14 22:13:20"⟩).2.1 (by decide) rfl⟩

/-- C2, counterexample: once `Close` has run on a logger (here one without
sinks, threshold `DEBUG`), an `Info` call, whose level is above the threshold,
panics on the closed queue and sends no record. -/
theorem deliverRecordToWriter_closed_counterexample :
    ∃ s : System Sink,
      (System.start [] DEBUG "2006/01/02 15:04:05").run (sinkOps fun _ => true)
        [.closeTunnel, .worker .tunnel, .closeWait] = some s ∧
      s.logger.level ≤ INFO ∧ s.logger.tunnelClosed = true ∧
      s.logger.Info "boot %s"
        ⟨"boot ok", "ok", some ("main.go", 12), ⟨1700000000, 0⟩, fun _ => "2023/11/14 22:13:20"⟩
        = none :=
  ⟨_, rfl, by decide, rfl, rfl⟩


/-! ## The worker and `Close` -/

theorem drain_writes {W : Type} (ops : WriterOps W) : ∀ (rs : List Record) (s : System W),
    s.logger.tunnel = rs → s.worker ≠ .exited →
    ∃ s1, s.run ops (drain rs.length) = some s1 ∧
      writeCalls s1.trace = writeCalls s.trace ++
        rs.flatMap (fun r => (List.range s.logger.writers.length).map fun i => (i, r)) ∧
      putRecords s1.trace = putRecords s.trace ++ (if s.worker = .first then rs.drop 1 else rs) ∧
      s1.logger.tunnel = [] ∧ s1.worker ≠ .exited ∧
      s1.logger.tunnelClosed = s.logger.tunnelClosed := by
  intro rs
  induction rs with
  | nil =>
    intro s _ hpc
    exact ⟨s, rfl, by simp, by simp, by assumption, hpc, rfl⟩
  | cons r rest ih =>
    intro s htun hpc
    rcases worker_cases ops s.logger s.worker .tunnel with h | ⟨_, _, h', _⟩ |
      ⟨_, _, r', rest', htun', h⟩ | ⟨h', _⟩ | ⟨h', _⟩
    · cases hw : s.worker <;> simp [boostrapLogWriter, hw, htun] at h
      exact absurd hw hpc
    · rw [htun] at h'; cases h'
    · rw [htun] at htun'
      cases htun'
      obtain ⟨s2, hs2, ht2, hc2, hp2, hw2, htr2⟩ : ∃ s2, s.step ops (.worker .tunnel) = some s2 ∧
          s2.logger.tunnel = rest ∧ s2.logger.tunnelClosed = s.logger.tunnelClosed ∧
          s2.worker = .loop ∧ s2.logger.writers.length = s.logger.writers.length ∧
          s2.trace = s.trace ++ ((writeAll ops r 0 s.logger.writers).2
            ++ if s.worker = .first then [] else [Event.Put r]) := by
        simp [System.step, h, writeAll_length]
      obtain ⟨s1, hrun, hwc, hput, hemp, hne, hcl⟩ := ih s2 ht2 (by rw [hp2]; decide)
      refine ⟨s1, ?_, ?_, ?_, hemp, hne, by rw [hcl, hc2]⟩
      · have hd : drain (r :: rest).length = Action.worker Select.tunnel :: drain rest.length :=
          rfl
        rw [hd]
        simp only [System.run, hs2]
        exact hrun
      · have hx : writeCalls (if s.worker = .first then [] else [Event.Put r]) = [] := by
          split <;> rfl
        rw [hwc, htr2, hw2]
        simp only [writeCalls_append, writeCalls_writeAll, hx, List.append_nil,
          List.flatMap_cons, List.append_assoc, List.range_eq_range']
      · rw [hput, htr2, hp2]
        simp only [putRecords_append, putRecords_writeAll, List.nil_append]
        cases hw : s.worker
        · simp [putRecords]
        · simp [putRecords]
        · exact absurd hw hpc
    · cases h'
    · cases h'

theorem run_split {W : Type} (ops : WriterOps W) (s s' : System W) (as1 as2 : List Action)
    (a : Action) (h : s.run ops (as1 ++ a :: as2) = some s') :
    ∃ s1 s2, s.run ops as1 = some s1 ∧ s1.step ops a = some s2 ∧ s2.run ops as2 = some s' := by
  rw [run_append] at h
  cases hs1 : s.run ops as1 with
  | none => rw [hs1] at h; cases h
  | some s1 =>
    rw [hs1] at h
    simp only [Option.some_bind, System.run] at h
    cases hs2 : s1.step ops a with
    | none => rw [hs2] at h; cases h
    | some s2 =>
      rw [hs2] at h
      exact ⟨s1, s2, rfl, hs2, h⟩

/-- C1. On a logger with the registered sinks `ws`, let the callers make the
leveled calls `logs` and then call `Close`, and nothing else. (1) In every run
of this, whatever the worker does in between and whenever its timers tick: when
the receive on `c` in `Close` succeeds, every registered sink `i` is the sink
`ws[i]` after the calls the worker made on it, the `Write` calls among them are
exactly the records sent, as many and in the same order, and `Write` was applied
to the sink for each; `Close` then calls `Flush` once on every sink that is a
`Flusher`, which leaves the sink as `Flush` makes it, prints the errors and
returns; nothing is written or sent meanwhile. (2) `Close` does return: from
every state reached after its `close(l.tunnel)`, finitely many receives of the
worker drain the queue, and the rest of `Close` then runs. -/
theorem close_delivers_every_record {W : Type} (ops : WriterOps W) (ws : List W) (lvl : Int)
    (layout : String) (logs : List Action) (hlogs : ∀ a ∈ logs, a.isLog = true) :
    (∀ as s, callerActions as = logs ++ [.closeTunnel, .closeWait] →
        (System.start ws lvl layout).run ops as = some s →
        ∃ as1 s1 closeEvs, as = as1 ++ [.closeWait] ∧
          (System.start ws lvl layout).run ops as1 = some s1 ∧
          s.trace = s1.trace ++ closeEvs ++ [Event.CloseReturn] ∧
          (∀ i, i < ws.length → writesTo i s1.trace = sentRecords s1.trace) ∧
          (∀ i, i < ws.length → writesTo i s.trace = sentRecords s.trace) ∧
          sentRecords s.trace = sentRecords s1.trace ∧
          s1.logger.writers.length = ws.length ∧
          s.logger.writers.length = ws.length ∧
          printed closeEvs = s1.logger.writers.filterMap (flushError ops) ∧
          (∀ i w0, ws[i]? = some w0 →
            (callsOn i s1.trace).filterMap SinkCall.record = sentRecords s1.trace ∧
            s1.logger.writers[i]? = some (applyCalls ops w0 (callsOn i s1.trace)) ∧
            callsOn i closeEvs =
              (if (ops.Flush (applyCalls ops w0 (callsOn i s1.trace))).isSome
                then [SinkCall.Flush] else []) ∧
            ((ops.Flush (applyCalls ops w0 (callsOn i s1.trace))).isSome = true →
              Event.Flush i ∈ closeEvs) ∧
            s.logger.writers[i]?
              = some (flushed ops (applyCalls ops w0 (callsOn i s1.trace))))) ∧
    (∀ as s0, callerActions as = logs ++ [.closeTunnel] →
        (System.start ws lvl layout).run ops as = some s0 →
        ∃ n s, s0.run ops (drain n ++ [.closeWait]) = some s) := by
  constructor
  · intro as s hca hrun
    have hca' : callerActions as = (logs ++ [.closeTunnel]) ++ [.closeWait] := by
      rw [hca]; simp
    obtain ⟨as1, as2, rfl, _, h2⟩ := callerActions_split as _ _ hca'
    obtain ⟨s1, s2, hs1, hs2, hrun⟩ := run_split ops _ _ _ _ _ hrun
    have hinv1 : s1.Inv ws.length := inv_run ops as1 (inv_start ws lvl layout) hs1
    have hinv2 : s2.Inv ws.length := inv_step ops _ hinv1 hs2
    have ht1 : s1.Tracks ops ws := tracks_run ops as1 (tracks_start ops ws lvl layout) hs1
    -- what the rest of `Close` did
    simp only [System.step, Logger.closeWait] at hs2
    cases hc : s1.logger.c with
    | nil => rw [hc] at hs2; cases hs2
    | cons b rest =>
      rw [hc] at hs2
      simp only [Option.some.injEq] at hs2
      have hne : s1.logger.c ≠ [] := by rw [hc]; exact List.cons_ne_nil _ _
      have hex1 : s1.worker = .exited := hinv1.c_exited hne
      have hex2 : s2.worker = .exited := by rw [← hs2]; exact hex1
      have has2 : as2 = [] := run_exited_workers ops as2 s2 s hex2 h2 hrun
      subst has2
      simp only [System.run, Option.some.injEq] at hrun
      subst hrun
      have htr : s2.trace
          = s1.trace ++ (flushAll ops 0 s1.logger.writers).2 ++ [Event.CloseReturn] := by
        rw [← hs2]; simp
      have hws2 : s2.logger.writers = s1.logger.writers.map (flushed ops) := by
        rw [← hs2]; exact flushAll_states ops _ 0
      have hdr1 := (hinv1.exited_drained hex1).1
      have hdr2 := (hinv2.exited_drained hex2).1
      obtain ⟨q1, _, _⟩ := flushAll_quiet ops s1.logger.writers 0
      have hw1 : ∀ i, i < ws.length → writesTo i s1.trace = sentRecords s1.trace := by
        intro i hi
        have := hinv1.writes i hi
        rwa [hdr1, List.append_nil] at this
      refine ⟨as1, s1, (flushAll ops 0 s1.logger.writers).2, rfl, hs1, htr, hw1, ?_, ?_,
        hinv1.len, hinv2.len, printed_flushAll ops _ 0, ?_⟩
      · intro i hi
        have := hinv2.writes i hi
        rwa [hdr2, List.append_nil] at this
      · rw [htr]
        simp only [sentRecords_append, q1, List.append_nil]
        simp [sentRecords]
      · intro i w0 h0
        have hcur := ht1 i w0 h0
        have hi : i < ws.length := by
          rcases Nat.lt_or_ge i ws.length with hlt | hge
          · exact hlt
          · rw [List.getElem?_eq_none hge] at h0; cases h0
        refine ⟨?_, hcur, callsOn_flushAll_at ops _ i _ hcur, ?_, ?_⟩
        · rw [← writesTo_eq_callsOn]
          exact hw1 i hi
        · intro hF
          have := flush_mem_flushAll ops s1.logger.writers 0 i _ hcur hF
          simpa using this
        · rw [hws2, List.getElem?_map, hcur]
          rfl
  · intro as s0 hca hrun
    have hinv : s0.Inv ws.length := inv_run ops as (inv_start ws lvl layout) hrun
    -- the queue is closed
    obtain ⟨as1, as2, rfl, _, _⟩ := callerActions_split as _ _ hca
    have hclosed : s0.logger.tunnelClosed = true := by
      obtain ⟨s1, s2, _, hs2, hrun2⟩ := run_split ops _ _ _ _ _ hrun
      exact run_closed_mono ops as2 hrun2 (step_closed_mono ops _ hs2 (Or.inr rfl))
    -- `Close` has not got past its receive
    have hno : Action.closeWait ∉ as1 ++ Action.closeTunnel :: as2 := by
      intro hm
      have := mem_callerActions _ _ hm (fun sel h => by cases h)
      rw [hca] at this
      rcases List.mem_append.mp this with h | h
      · have := hlogs _ h
        cases this
      · simp at h
    have htr : Event.CloseReturn ∉ s0.trace :=
      run_no_closeReturn ops _ hrun hno (by simp [System.start])
    by_cases hex : s0.worker = .exited
    · have hne : s0.logger.c ≠ [] := by
        rcases hinv.exited_c hex with h | h
        · exact h
        · exact absurd h htr
      refine ⟨0, ?_⟩
      simp only [drain, List.replicate, List.nil_append, System.run, System.step,
        Logger.closeWait]
      cases hc : s0.logger.c with
      | nil => exact absurd hc hne
      | cons b rest => exact ⟨_, rfl⟩
    · obtain ⟨s1, hrun1, _, hne⟩ := drain_closed ops _ s0 rfl hclosed hex
      refine ⟨s0.logger.tunnel.length + 1, ?_⟩
      rw [run_append, hrun1]
      simp only [Option.some_bind, System.run, System.step, Logger.closeWait]
      cases hc : s1.logger.c with
      | nil => exact absurd hc hne
      | cons b rest => exact ⟨_, rfl⟩

/-- C1, witness: the sample run on a file sink and a console sink. Both sinks
get the two records sent, in the order of the sends, and `Close` flushes both.
At the end the file sink holds the line of the second record, the line of the
first having been moved away by the rotation in between, and the console has
shown both lines. -/
theorem close_delivers_every_record_witness :
    ∃ s, (System.start sampleSinks DEBUG "2006/01/02 15:04:05").run (sinkOps fun _ => true)
        sampleSchedule = some s ∧
      (sentRecords s.trace).map (·.level) = [INFO, ERROR] ∧
      writesTo 0 s.trace = sentRecords s.trace ∧
      writesTo 1 s.trace = sentRecords s.trace ∧
      flushCalls (s.trace.drop (s.trace.length - 3)) = [0, 1] ∧
      s.logger.writers =
        [.file { NewFileWriter with
            fileName := "app.log", floor := TRACE, ceil := ERROR, opened := true,
            lines := ["[ERROR][2023/11/14 22:13:20][main.go:12] :8080\n"],
            rotated := ["[INFO][2023/11/14 22:13:20][main.go:12] listening on :8080\n"] },
         .console { NewConsoleWriter with
            out := ["[INFO][2023/11/14 22:13:20][main.go:12] listening on :8080\n",
                    "[ERROR][2023/11/14 22:13:20][main.go:12] :8080\n"] }] := by
  have hlogs : ∀ a ∈ [Action.log INFO "listening on %s" sampleEnv, Action.log ERROR "" sampleEnv],
      a.isLog = true := by
    intro a ha
    simp only [List.mem_cons, List.mem_singleton, List.not_mem_nil, or_false] at ha
    rcases ha with rfl | rfl <;> rfl
  obtain ⟨s, hs⟩ : ∃ s, (System.start sampleSinks DEBUG "2006/01/02 15:04:05").run
      (sinkOps fun _ => true) sampleSchedule = some s := ⟨_, rfl⟩
  obtain ⟨_, _, _, _, _, _, _, hw, _⟩ :=
    (close_delivers_every_record (sinkOps fun _ => true) sampleSinks DEBUG "2006/01/02 15:04:05"
      _ hlogs).1 sampleSchedule s rfl hs
  have hs' := hs
  simp only [sampleSchedule, System.run, System.step] at hs'
  refine ⟨s, hs, ?_, hw 0 (by decide), hw 1 (by decide), ?_, ?_⟩
  · cases hs'; decide
  · cases hs'; decide
  · cases hs'; decide

/-- C3. Whatever the sinks return. (1) A worker that has not returned and
finds a record `r` in the queue applies `Write` with it to every registered
sink, in the order of registration: every sink is left as its `Write` leaves
it, the errors returned are printed, all of them and in that order, and the
worker stays in its loop with the rest of the queue; in particular, when the
`Write` of a sink returns an error, that error is printed and `Write` is still
applied to every sink registered after it. (2) A step of the worker ends it
only when it is a receive on a closed and empty queue, never because of an
error. (3) From any queue the worker, one receive after the other, does what
`deliveredInOrder` says: every record is written to every sink in the order of
the queue, the errors are printed, and the worker is still running. (4) In the
loop a tick of either timer is always served: `Flush`, respectively `Rotate`, is
applied to every sink that has it, the errors are printed, and the worker stays
in the loop with the queue as it was. -/
theorem worker_survives_errors {W : Type} (ops : WriterOps W) (logger : Logger W)
    (pc : WorkerPC) :
    (∀ r rest, pc ≠ .exited → logger.tunnel = r :: rest →
      ∃ l1 evs, boostrapLogWriter ops logger pc .tunnel = some (l1, .loop, evs) ∧
        writeCalls evs = (List.range logger.writers.length).map (fun i => (i, r)) ∧
        l1.tunnel = rest ∧ l1.writers.length = logger.writers.length ∧
        l1.writers = logger.writers.map (fun w => (ops.Write w r).1) ∧
        printed evs = logger.writers.filterMap (fun w => (ops.Write w r).2) ∧
        (∀ j w e, logger.writers[j]? = some w → (ops.Write w r).2 = some e →
          Event.Println e ∈ evs ∧
          ∀ k wk, j < k → logger.writers[k]? = some wk →
            Event.Write k r ∈ evs ∧ l1.writers[k]? = some (ops.Write wk r).1)) ∧
    (∀ sel l1 pc1 evs, boostrapLogWriter ops logger pc sel = some (l1, pc1, evs) →
      (pc1 = .exited ↔ sel = .tunnel ∧ logger.tunnel = [] ∧ logger.tunnelClosed = true)) ∧
    (∀ trace, pc ≠ .exited →
      ∃ s1, ({ logger := logger, worker := pc, trace := trace } : System W).run ops
          (drain logger.tunnel.length) = some s1 ∧
        writeCalls s1.trace = writeCalls trace ++ logger.tunnel.flatMap
          (fun r => (List.range logger.writers.length).map fun i => (i, r)) ∧
        s1.logger.tunnel = [] ∧ s1.worker ≠ .exited ∧
        s1.logger.writers = (deliveredInOrder ops logger.writers logger.tunnel).1 ∧
        s1.logger.writers = logger.writers.map
          (fun w => logger.tunnel.foldl (fun w r => (ops.Write w r).1) w) ∧
        printed s1.trace
          = printed trace ++ (deliveredInOrder ops logger.writers logger.tunnel).2) ∧
    (∀ sel, sel ≠ .tunnel →
      ∃ l1 evs, boostrapLogWriter ops logger .loop sel = some (l1, .loop, evs) ∧
        l1.tunnel = logger.tunnel ∧ l1.writers.length = logger.writers.length) ∧
    (∃ l1 evs, boostrapLogWriter ops logger .loop .flushTimer = some (l1, .loop, evs) ∧
      l1.writers = logger.writers.map (flushed ops) ∧
      printed evs = logger.writers.filterMap (flushError ops)) ∧
    (∃ l1 evs, boostrapLogWriter ops logger .loop .rotateTimer = some (l1, .loop, evs) ∧
      l1.writers = logger.writers.map (rotated ops) ∧
      printed evs = logger.writers.filterMap (rotateError ops)) := by
  refine ⟨?_, ?_, ?_, ?_, ?_, ?_⟩
  · intro r rest hpc htun
    rcases worker_cases ops logger pc .tunnel with h | ⟨_, _, h', _⟩ |
      ⟨_, _, r', rest', htun', h⟩ | ⟨h', _⟩ | ⟨h', _⟩
    · cases hw : pc <;> simp [boostrapLogWriter, hw, htun] at h
      exact absurd hw hpc
    · rw [htun] at h'; cases h'
    · rw [htun] at htun'
      cases htun'
      have hx : writeCalls (if pc = .first then [] else [Event.Put r]) = [] := by
        split <;> rfl
      have hy : printed (if pc = .first then [] else [Event.Put r]) = [] := by
        split <;> rfl
      have hwc : writeCalls ((writeAll ops r 0 logger.writers).2
          ++ if pc = .first then [] else [Event.Put r])
          = (List.range logger.writers.length).map (fun i => (i, r)) := by
        simp only [writeCalls_append, writeCalls_writeAll, hx, List.append_nil,
          List.range_eq_range']
      have hpr : printed ((writeAll ops r 0 logger.writers).2
          ++ if pc = .first then [] else [Event.Put r])
          = logger.writers.filterMap (fun w => (ops.Write w r).2) := by
        simp only [printed_append, printed_writeAll, hy, List.append_nil]
      have hst : (writeAll ops r 0 logger.writers).1
          = logger.writers.map (fun w => (ops.Write w r).1) := writeAll_states ops r _ 0
      refine ⟨_, _, h, hwc, rfl, by simp [writeAll_length], hst, hpr, ?_⟩
      intro j w e hj he
      constructor
      · apply mem_of_mem_printed
        rw [hpr, List.mem_filterMap]
        exact ⟨w, List.getElem?_mem hj, he⟩
      · intro k wk _ hk
        constructor
        · apply mem_of_mem_writeCalls
          rw [hwc, List.mem_map]
          have hklt : k < logger.writers.length := by
            rcases Nat.lt_or_ge k logger.writers.length with hlt | hge
            · exact hlt
            · rw [List.getElem?_eq_none hge] at hk; cases hk
          exact ⟨k, List.mem_range.mpr hklt, rfl⟩
        · show (writeAll ops r 0 logger.writers).1[k]? = _
          rw [hst, List.getElem?_map, hk]
          rfl
    · cases h'
    · cases h'
  · intro sel l1 pc1 evs hstep
    rcases worker_cases ops logger pc sel with h | ⟨hsel, _, htun, hc, h⟩ |
      ⟨_, _, r, rest, htun, h⟩ | ⟨hsel, _, h⟩ | ⟨hsel, _, h⟩
    · rw [h] at hstep; cases hstep
    · rw [h] at hstep; cases hstep
      exact ⟨fun _ => ⟨hsel, htun, hc⟩, fun _ => rfl⟩
    · rw [h] at hstep; cases hstep
      constructor
      · intro hx; cases hx
      · rintro ⟨_, h0, _⟩
        rw [htun] at h0; cases h0
    · rw [h] at hstep; cases hstep
      constructor
      · intro hx; cases hx
      · rintro ⟨h0, _⟩
        rw [hsel] at h0; cases h0
    · rw [h] at hstep; cases hstep
      constructor
      · intro hx; cases hx
      · rintro ⟨h0, _⟩
        rw [hsel] at h0; cases h0
  · intro trace hpc
    obtain ⟨s1, hrun, hwc, _, hemp, hne, _⟩ :=
      drain_writes ops logger.tunnel { logger := logger, worker := pc, trace := trace } rfl hpc
    obtain ⟨s1', hrun', hst, hpr⟩ :=
      drain_states ops logger.tunnel { logger := logger, worker := pc, trace := trace } rfl hpc
    rw [hrun] at hrun'
    cases hrun'
    refine ⟨s1, hrun, hwc, hemp, hne, hst, ?_, hpr⟩
    rw [hst, deliveredInOrder_states]
  · intro sel hsel
    cases sel with
    | tunnel => exact absurd rfl hsel
    | flushTimer => exact ⟨_, _, rfl, rfl, by simp [flushAll_length]⟩
    | rotateTimer => exact ⟨_, _, rfl, rfl, by simp [rotateAll_length]⟩
  · exact ⟨_, _, rfl, flushAll_states ops _ 0, printed_flushAll ops _ 0⟩
  · exact ⟨_, _, rfl, rotateAll_states ops _ 0, printed_rotateAll ops _ 0⟩

/-- C3, witness: a sink with a broken disk registered before a sound one, and
two records in the queue. Both writes to the first sink fail and are reported;
the second sink holds both records, in the order of the queue, and the worker is
still running. -/
theorem worker_survives_errors_witness :
    ∃ s1, ({ logger := { Logger.fresh (Bool × List Record) with
                writers := [(true, []), (false, [])], tunnel := sampleQueue },
             worker := .first, trace := [] } : System (Bool × List Record)).run flakyOps
          (drain 2) = some s1 ∧
      s1.logger.writers = [(true, []), (false, sampleQueue)] ∧
      printed s1.trace = ["write failed: disk full", "write failed: disk full"] ∧
      s1.logger.tunnel = [] ∧ s1.worker ≠ .exited := by
  obtain ⟨s1, hrun, _, hemp, hne, _, hst, hpr⟩ :=
    (worker_survives_errors flakyOps
      { Logger.fresh (Bool × List Record) with
        writers := [(true, []), (false, [])], tunnel := sampleQueue } .first).2.2.1 []
      (fun h => WorkerPC.noConfusion h)
  refine ⟨s1, hrun, ?_, ?_, hemp, hne⟩
  · rw [hst]; decide
  · rw [hpr]; decide

/-- C10 (the code at the failing input). The worker that takes a record `r`
at its first receive calls `Write` with it on every sink and goes into its loop
without a `Put`: the pool is as it was. The same record taken by the receive of
the loop is put back after the writes. So of the records `rs` of a queue that a
fresh worker drains, all but the first are put back, once each. -/
theorem first_record_never_put_back {W : Type} (ops : WriterOps W) (logger : Logger W)
    (r : Record) (rest : List Record) :
    (∃ l1 evs, boostrapLogWriter ops { logger with tunnel := r :: rest } .first .tunnel
        = some (l1, .loop, evs) ∧
      writeCalls evs = (List.range logger.writers.length).map (fun i => (i, r)) ∧
      putRecords evs = [] ∧ l1.recordPool = logger.recordPool) ∧
    (∃ l2 evs, boostrapLogWriter ops { logger with tunnel := r :: rest } .loop .tunnel
        = some (l2, .loop, evs) ∧
      evs = (writeAll ops r 0 logger.writers).2 ++ [Event.Put r] ∧
      putRecords evs = [r] ∧ l2.recordPool = r :: logger.recordPool) ∧
    (∃ s1, ({ logger := { logger with tunnel := r :: rest }, worker := .first, trace := [] }
          : System W).run ops (drain (r :: rest).length) = some s1 ∧
      s1.logger.tunnel = [] ∧
      writeCalls s1.trace = (r :: rest).flatMap
        (fun r => (List.range logger.writers.length).map fun i => (i, r)) ∧
      putRecords s1.trace = rest) := by
  refine ⟨⟨_, _, rfl, ?_, ?_, rfl⟩, ⟨_, _, rfl, rfl, ?_, rfl⟩, ?_⟩
  · simp only [writeCalls_writeAll, List.range_eq_range']
  · exact putRecords_writeAll ops r logger.writers 0
  · simp only [putRecords_append, putRecords_writeAll, List.nil_append]
    rfl
  · obtain ⟨s1, hrun, hwc, hput, hemp, _, _⟩ :=
      drain_writes ops (r :: rest)
        { logger := { logger with tunnel := r :: rest }, worker := .first, trace := [] } rfl
        (fun h => WorkerPC.noConfusion h)
    refine ⟨s1, hrun, hemp, ?_, ?_⟩
    · simpa [writeCalls] using hwc
    · simpa [putRecords] using hput


/-! ## The default logger -/

section Facade

variable {W : Type} (ops : WriterOps W)

theorem defaultLoggerInit_initial :
    (defaultLoggerInit (Globals.initial W)).Single ∧
      (defaultLoggerInit (Globals.initial W)).logger_default = some 0 := by
  refine ⟨⟨rfl, rfl, rfl⟩, rfl⟩

theorem defaultLoggerInit_single (g : Globals W) (h : g.Single) :
    (defaultLoggerInit g).Single ∧ (defaultLoggerInit g).logger_default = some 0 := by
  obtain ⟨h1, h2, h3⟩ := h
  cases ht : g.takeup with
  | true => simp [defaultLoggerInit, Globals.Single, ht, h1, h2, h3]
  | false => simp [defaultLoggerInit, NewLogger, Globals.Single, ht, h1, h2, h3]

theorem onDefault_single (g : Globals W) (f : Logger W → Option (Logger W)) (h : g.Single) :
    (g.onDefault f).1.Single := by
  obtain ⟨h1, h2, h3⟩ := h
  cases hl : g.loggers[0]? with
  | none => simp [Globals.onDefault, Globals.Single, h1, h2, h3, hl]
  | some l =>
    cases hf : f l with
    | none => simp [Globals.onDefault, Globals.Single, h1, h2, h3, hl, hf]
    | some l1 => simp [Globals.onDefault, Globals.Single, h1, h2, h3, hl, hf]

theorem exec_eq_onDefault (g : Globals W) (c : FacadeCall W) :
    ∃ f, c.exec ops g = (defaultLoggerInit g).onDefault f := by
  cases c with
  | SetLevel lvl => exact ⟨fun l => some { l with level := lvl }, rfl⟩
  | SetLayout layout => exact ⟨fun l => some { l with layout := layout }, rfl⟩
  | Trace fmt env => exact ⟨fun l => (l.deliverRecordToWriter TRACE fmt env).map Prod.fst, rfl⟩
  | Debug fmt env => exact ⟨fun l => (l.deliverRecordToWriter DEBUG fmt env).map Prod.fst, rfl⟩
  | Info fmt env => exact ⟨fun l => (l.deliverRecordToWriter INFO fmt env).map Prod.fst, rfl⟩
  | Warn fmt env => exact ⟨fun l => (l.deliverRecordToWriter WARNING fmt env).map Prod.fst, rfl⟩
  | Error fmt env => exact ⟨fun l => (l.deliverRecordToWriter ERROR fmt env).map Prod.fst, rfl⟩
  | Fatal fmt env => exact ⟨fun l => (l.deliverRecordToWriter FATAL fmt env).map Prod.fst, rfl⟩
  | Register w => exact ⟨fun l => l.Register ops w, rfl⟩

theorem exec_single (g : Globals W) (c : FacadeCall W)
    (h : g.Single ∨ g = Globals.initial W) :
    (c.exec ops g).1.Single ∧ (defaultLoggerInit g).logger_default = some 0 := by
  obtain ⟨f, hf⟩ := exec_eq_onDefault ops g c
  rw [hf]
  rcases h with h | rfl
  · exact ⟨onDefault_single _ f (defaultLoggerInit_single g h).1, (defaultLoggerInit_single g h).2⟩
  · exact ⟨onDefault_single _ f defaultLoggerInit_initial.1, defaultLoggerInit_initial.2⟩

theorem runFacade_single (cs : List (FacadeCall W)) :
    ∀ g : Globals W, g.Single →
      (runFacade ops g cs).1.Single ∧ ∀ t ∈ (runFacade ops g cs).2, t = some 0 := by
  induction cs with
  | nil => intro g h; exact ⟨h, by simp [runFacade]⟩
  | cons c cs ih =>
    intro g h
    obtain ⟨h1, h2⟩ := exec_single ops g c (Or.inl h)
    obtain ⟨h3, h4⟩ := ih _ h1
    refine ⟨h3, ?_⟩
    intro t ht
    simp only [runFacade, List.mem_cons] at ht
    rcases ht with rfl | ht
    · exact h2
    · exact h4 t ht

/-- C9. Before any call no `Logger` exists. After the first of a sequence of
package-level calls other than `Close` exactly one `Logger` has been built and
one worker started; after the whole sequence, however long, this is still so:
one `Logger`, one worker, `logger_default` pointing to that logger; and every
call of the sequence worked on that logger. -/
theorem facade_builds_one_logger {W : Type} (ops : WriterOps W) (c : FacadeCall W)
    (cs : List (FacadeCall W)) :
    (Globals.initial W).loggers = [] ∧ (Globals.initial W).workers = [] ∧
    (c.exec ops (Globals.initial W)).1.loggers.length = 1 ∧
    (c.exec ops (Globals.initial W)).1.workers = [0] ∧
    (runFacade ops (Globals.initial W) (c :: cs)).1.loggers.length = 1 ∧
    (runFacade ops (Globals.initial W) (c :: cs)).1.workers = [0] ∧
    (runFacade ops (Globals.initial W) (c :: cs)).1.logger_default = some 0 ∧
    (runFacade ops (Globals.initial W) (c :: cs)).2.length = (c :: cs).length ∧
    ∀ t ∈ (runFacade ops (Globals.initial W) (c :: cs)).2, t = some 0 := by
  obtain ⟨⟨h1, h2, h3⟩, h4⟩ := exec_single ops (Globals.initial W) c (Or.inr rfl)
  obtain ⟨⟨h5, h6, h7⟩, h8⟩ := runFacade_single ops cs _ ⟨h1, h2, h3⟩
  have hlen : ∀ (cs : List (FacadeCall W)) (g : Globals W),
      (runFacade ops g cs).2.length = cs.length := by
    intro cs
    induction cs with
    | nil => intro g; rfl
    | cons c cs ih => intro g; simp [runFacade, ih]
  refine ⟨rfl, rfl, h1, h2, h5, h6, h7, hlen _ _, ?_⟩
  intro t ht
  simp only [runFacade, List.mem_cons] at ht
  rcases ht with rfl | ht
  · exact h4
  · exact h8 t ht

end Facade


/-! ## `SetupLogInstanceWithConf` -/

theorem string_length_pos (s : String) : s.length > 0 ↔ s ≠ "" := by
  cases s with
  | mk data =>
    cases data with
    | nil => simp [String.length]
    | cons c cs =>
      simp only [String.length, List.length_cons, gt_iff_lt, Nat.zero_lt_succ, ne_eq, true_iff]
      intro h
      have := congrArg String.data h
      simp at this

theorem register_file (canOpen : String → Bool) (l : Logger Sink) (w : FileWriter)
    (h : canOpen w.fileName = true) :
    l.Register (sinkOps canOpen) (.file w)
      = some { l with writers := l.writers ++ [.file { w with opened := true }] } := by
  simp [Logger.Register, sinkOps, h]

theorem register_console (canOpen : String → Bool) (l : Logger Sink) (w : ConsoleWriter) :
    l.Register (sinkOps canOpen) (.console w)
      = some { l with writers := l.writers ++ [.console w] } := by
  simp [Logger.Register, sinkOps]

/-- The sinks `SetupLogInstanceWithConf` registers when every `Init` succeeds,
and that it then goes on to the level name. -/
theorem setup_registers (canOpen : String → Bool) (lc : LogConfig) (logger : Logger Sink)
    (hopen : lc.FW.On = true → lc.FW.LogPath ≠ "" → canOpen lc.FW.LogPath = true)
    (hopenWf : lc.FW.On = true → lc.FW.WfLogPath ≠ "" → canOpen lc.FW.WfLogPath = true) :
    ∃ l1 err, SetupLogInstanceWithConf canOpen lc logger = some (l1, err) ∧
      l1.writers = logger.writers
        ++ (if lc.FW.On = true ∧ lc.FW.LogPath ≠ "" then
              [Sink.file { NewFileWriter with
                fileName := lc.FW.LogPath, pathPattern := lc.FW.RotateLogPath, floor := TRACE,
                ceil := if lc.FW.WfLogPath ≠ "" then INFO else ERROR, opened := true }]
            else [])
        ++ (if lc.FW.On = true ∧ lc.FW.WfLogPath ≠ "" then
              [Sink.file { NewFileWriter with
                fileName := lc.FW.WfLogPath, pathPattern := lc.FW.RotateWfLogPath,
                floor := WARNING, ceil := ERROR, opened := true }]
            else [])
        ++ (if lc.CW.On = true then [Sink.console { NewConsoleWriter with color := lc.CW.Color }]
            else []) ∧
      (lc.Level ∈ levelNames → err = none) ∧
      (lc.Level ∉ levelNames → err = some "Invalid log level" ∧ l1.level = logger.level) ∧
      (lc.Level = "trace" → l1.level = TRACE) ∧ (lc.Level = "debug" → l1.level = DEBUG) ∧
      (lc.Level = "info" → l1.level = INFO) ∧ (lc.Level = "warning" → l1.level = WARNING) ∧
      (lc.Level = "error" → l1.level = ERROR) ∧ (lc.Level = "fatal" → l1.level = FATAL) := by
  have hlp : ∀ s : String, s ≠ "" → s.length > 0 := fun s h => (string_length_pos s).mpr h
  have hlev : ∀ l2 : Logger Sink, l2.level = logger.level →
      ∃ l1 err,
        (if lc.Level = "trace" then (l2.SetLevel TRACE, none)
          else if lc.Level = "debug" then (l2.SetLevel DEBUG, none)
          else if lc.Level = "info" then (l2.SetLevel INFO, none)
          else if lc.Level = "warning" then (l2.SetLevel WARNING, none)
          else if lc.Level = "error" then (l2.SetLevel ERROR, none)
          else if lc.Level = "fatal" then (l2.SetLevel FATAL, none)
          else (l2, some "Invalid log level")) = (l1, err) ∧
        l1.writers = l2.writers ∧
        (lc.Level ∈ levelNames → err = none) ∧
        (lc.Level ∉ levelNames → err = some "Invalid log level" ∧ l1.level = logger.level) ∧
        (lc.Level = "trace" → l1.level = TRACE) ∧ (lc.Level = "debug" → l1.level = DEBUG) ∧
        (lc.Level = "info" → l1.level = INFO) ∧ (lc.Level = "warning" → l1.level = WARNING) ∧
        (lc.Level = "error" → l1.level = ERROR) ∧ (lc.Level = "fatal" → l1.level = FATAL) := by
    intro l2 hl2
    by_cases h1 : lc.Level = "trace"
    · exact ⟨l2.SetLevel TRACE, none, by rw [if_pos h1], rfl, by simp [h1, Logger.SetLevel, levelNames]⟩
    by_cases h2 : lc.Level = "debug"
    · exact ⟨l2.SetLevel DEBUG, none, by rw [if_neg h1, if_pos h2], rfl, by simp [h2, Logger.SetLevel, levelNames]⟩
    by_cases h3 : lc.Level = "info"
    · exact ⟨l2.SetLevel INFO, none, by rw [if_neg h1, if_neg h2, if_pos h3], rfl,
        by simp [h3, Logger.SetLevel, levelNames]⟩
    by_cases h4 : lc.Level = "warning"
    · exact ⟨l2.SetLevel WARNING, none, by rw [if_neg h1, if_neg h2, if_neg h3, if_pos h4], rfl,
        by simp [h4, Logger.SetLevel, levelNames]⟩
    by_cases h5 : lc.Level = "error"
    · exact ⟨l2.SetLevel ERROR, none, by rw [if_neg h1, if_neg h2, if_neg h3, if_neg h4, if_pos h5], rfl,
        by simp [h5, Logger.SetLevel, levelNames]⟩
    by_cases h6 : lc.Level = "fatal"
    · exact ⟨l2.SetLevel FATAL, none, by rw [if_neg h1, if_neg h2, if_neg h3, if_neg h4, if_neg h5, if_pos h6], rfl,
        by simp [h6, Logger.SetLevel, levelNames]⟩
    · exact ⟨l2, some "Invalid log level",
        by rw [if_neg h1, if_neg h2, if_neg h3, if_neg h4, if_neg h5, if_neg h6], rfl,
        by simp [h1, h2, h3, h4, h5, h6, hl2, levelNames]⟩
  have hreg : ∃ l2 : Logger Sink, l2.level = logger.level ∧
      l2.writers = logger.writers
        ++ (if lc.FW.On = true ∧ lc.FW.LogPath ≠ "" then
              [Sink.file { NewFileWriter with
                fileName := lc.FW.LogPath, pathPattern := lc.FW.RotateLogPath, floor := TRACE,
                ceil := if lc.FW.WfLogPath ≠ "" then INFO else ERROR, opened := true }]
            else [])
        ++ (if lc.FW.On = true ∧ lc.FW.WfLogPath ≠ "" then
              [Sink.file { NewFileWriter with
                fileName := lc.FW.WfLogPath, pathPattern := lc.FW.RotateWfLogPath,
                floor := WARNING, ceil := ERROR, opened := true }]
            else [])
        ++ (if lc.CW.On = true then [Sink.console { NewConsoleWriter with color := lc.CW.Color }]
            else []) ∧
      SetupLogInstanceWithConf canOpen lc logger = some
        (if lc.Level = "trace" then (l2.SetLevel TRACE, none)
          else if lc.Level = "debug" then (l2.SetLevel DEBUG, none)
          else if lc.Level = "info" then (l2.SetLevel INFO, none)
          else if lc.Level = "warning" then (l2.SetLevel WARNING, none)
          else if lc.Level = "error" then (l2.SetLevel ERROR, none)
          else if lc.Level = "fatal" then (l2.SetLevel FATAL, none)
          else (l2, some "Invalid log level")) := by
    by_cases hon : lc.FW.On = true <;> by_cases hp : lc.FW.LogPath = "" <;>
      by_cases hw : lc.FW.WfLogPath = "" <;> by_cases hcw : lc.CW.On = true <;>
      simp [SetupLogInstanceWithConf, hon, hp, hw, hcw, register_file, register_console,
        FileWriter.SetFileName, FileWriter.SetPathPattern, FileWriter.SetLogLevelFloor,
        FileWriter.SetLogLevelCeil, ConsoleWriter.SetColor, hopen, hopenWf, hlp] <;>
      refine ⟨_, ?_, ?_, rfl⟩ <;> simp
  obtain ⟨l2, hl2, hws, hset⟩ := hreg
  obtain ⟨l1, err, heq, hw1, rest⟩ := hlev l2 hl2
  exact ⟨l1, err, by rw [hset, heq], by rw [hw1, hws], rest⟩


/-- C7 (amended). For every configuration with `file_writer.on` true and a
non-empty `log_path` whose file sinks can be opened (`Register` panics on a sink
whose `Init` fails), `SetupLogInstanceWithConf` returns and has registered,
after the sinks the logger had, a general file sink for `log_path` with floor
`TRACE`. Without `wf_log_path` its ceiling is `ERROR` and no other file sink is
registered. With `wf_log_path` its ceiling is `INFO` and the next sink registered
is a file sink for `wf_log_path` with floor `WARNING` and ceiling `ERROR`; the two
windows are disjoint and together cover exactly `TRACE..ERROR`. -/
theorem setup_file_sink_windows (canOpen : String → Bool) (lc : LogConfig)
    (logger : Logger Sink) (hon : lc.FW.On = true) (hpath : lc.FW.LogPath ≠ "")
    (hopen : canOpen lc.FW.LogPath = true)
    (hopenWf : lc.FW.WfLogPath ≠ "" → canOpen lc.FW.WfLogPath = true) :
    ∃ l1 err general rest, SetupLogInstanceWithConf canOpen lc logger = some (l1, err) ∧
      l1.writers = logger.writers ++ Sink.file general :: rest ∧
      general.fileName = lc.FW.LogPath ∧ general.floor = TRACE ∧
      (lc.FW.WfLogPath = "" → general.ceil = ERROR ∧ ∀ s ∈ rest, s.window = none) ∧
      (lc.FW.WfLogPath ≠ "" → general.ceil = INFO ∧
        ∃ wf rest2, rest = Sink.file wf :: rest2 ∧ wf.fileName = lc.FW.WfLogPath ∧
          wf.floor = WARNING ∧ wf.ceil = ERROR ∧ (∀ s ∈ rest2, s.window = none) ∧
          (∀ level, ¬ (inWindow (general.floor, general.ceil) level ∧
            inWindow (wf.floor, wf.ceil) level)) ∧
          (∀ level, (inWindow (general.floor, general.ceil) level ∨
            inWindow (wf.floor, wf.ceil) level) ↔ (TRACE ≤ level ∧ level ≤ ERROR))) := by
  obtain ⟨l1, err, hset, hws, _⟩ :=
    setup_registers canOpen lc logger (fun _ _ => hopen) (fun _ h => hopenWf h)
  have hcons : ∀ s ∈ (if lc.CW.On = true then
      [Sink.console { NewConsoleWriter with color := lc.CW.Color }] else []),
      s.window = none := by
    intro s hs
    split at hs
    · simp only [List.mem_singleton] at hs
      rw [hs]; rfl
    · cases hs
  refine ⟨l1, err,
    { NewFileWriter with
      fileName := lc.FW.LogPath, pathPattern := lc.FW.RotateLogPath, floor := TRACE,
      ceil := if lc.FW.WfLogPath ≠ "" then INFO else ERROR, opened := true },
    (if lc.FW.On = true ∧ lc.FW.WfLogPath ≠ "" then
        [Sink.file { NewFileWriter with
          fileName := lc.FW.WfLogPath, pathPattern := lc.FW.RotateWfLogPath,
          floor := WARNING, ceil := ERROR, opened := true }]
      else [])
    ++ (if lc.CW.On = true then [Sink.console { NewConsoleWriter with color := lc.CW.Color }]
        else []),
    hset, ?_, rfl, rfl, ?_, ?_⟩
  · rw [hws]
    simp [hon, hpath]
  · intro hw
    refine ⟨by simp [hw], ?_⟩
    intro s hs
    simp only [hw, ne_eq, not_true_eq_false, and_false, if_false, List.nil_append] at hs
    exact hcons s hs
  · intro hw
    refine ⟨by simp [hw],
      { NewFileWriter with
        fileName := lc.FW.WfLogPath, pathPattern := lc.FW.RotateWfLogPath,
        floor := WARNING, ceil := ERROR, opened := true },
      (if lc.CW.On = true then [Sink.console { NewConsoleWriter with color := lc.CW.Color }]
        else []),
      by simp [hon, hw], rfl, rfl, rfl, hcons, ?_, ?_⟩
    · intro level
      simp only [inWindow, TRACE, INFO, WARNING, ERROR, hw, ne_eq, not_false_eq_true, if_true]
      omega
    · intro level
      simp only [inWindow, TRACE, INFO, WARNING, ERROR, hw, ne_eq, not_false_eq_true, if_true]
      omega

/-- C7, witness: `app.log` with and without `app.wf.log`, every file can be
opened. -/
theorem setup_file_sink_windows_witness :
    (∃ l1 err general rest,
      SetupLogInstanceWithConf (fun _ => true)
        ⟨"info", ⟨true, "app.log", "app.log.%Y%M%D", "app.wf.log", "app.wf.log.%Y%M%D"⟩,
          ⟨true, false⟩⟩ (Logger.fresh Sink) = some (l1, err) ∧
      l1.writers = Sink.file general :: rest ∧ general.floor = TRACE ∧ general.ceil = INFO ∧
      (rest.map Sink.window) = [some (WARNING, ERROR), none]) ∧
    ((SetupLogInstanceWithConf (fun _ => true)
        ⟨"info", ⟨true, "app.log", "app.log.%Y%M%D", "", ""⟩, ⟨false, false⟩⟩
        (Logger.fresh Sink)).map fun res => res.1.writers.map Sink.window)
      = some [some (TRACE, ERROR)] := by
  obtain ⟨l1, err, general, rest, hset, hws, _, hfloor, _, hwf⟩ :=
    setup_file_sink_windows (fun _ => true)
      ⟨"info", ⟨true, "app.log", "app.log.%Y%M%D", "app.wf.log", "app.wf.log.%Y%M%D"⟩,
        ⟨true, false⟩⟩ (Logger.fresh Sink) rfl (by decide) rfl (fun _ => rfl)
  obtain ⟨hceil, _⟩ := hwf (by decide)
  refine ⟨⟨l1, err, general, rest, hset, by simpa [Logger.fresh] using hws, hfloor, hceil, ?_⟩,
    by decide⟩
  have h2 : SetupLogInstanceWithConf (fun _ => true)
      ⟨"info", ⟨true, "app.log", "app.log.%Y%M%D", "app.wf.log", "app.wf.log.%Y%M%D"⟩,
        ⟨true, false⟩⟩ (Logger.fresh Sink) = some (l1, err) := hset
  have h3 : ((SetupLogInstanceWithConf (fun _ => true)
      ⟨"info", ⟨true, "app.log", "app.log.%Y%M%D", "app.wf.log", "app.wf.log.%Y%M%D"⟩,
        ⟨true, false⟩⟩ (Logger.fresh Sink)).map fun res => (res.1.writers.map Sink.window).drop 1)
      = some [some (WARNING, ERROR), none] := by decide
  rw [h2] at h3
  simp only [Option.map_some', Option.some.injEq] at h3
  rw [hws] at h3
  simpa [Logger.fresh] using h3

/-- C7, counterexample: `file_writer.on` is true and `log_path` is not empty,
but the file cannot be opened: `Init` fails, `Register` panics and no sink is
registered. -/
theorem setup_unopened_file_counterexample :
    SetupLogInstanceWithConf (fun _ => false)
      ⟨"info", ⟨true, "/var/log/gin/app.log", "", "", ""⟩, ⟨false, false⟩⟩
      (Logger.fresh Sink) = none := by
  rfl

/-- C8 (amended). For every configuration whose file sinks can be opened
(`Register` panics on a sink whose `Init` fails), `SetupLogInstanceWithConf`
returns a non-nil error if and only if `log_level` is none of `trace`, `debug`,
`info`, `warning`, `error`, `fatal`. For one of these names the threshold of the
logger is set to the level of that name and nil is returned; for any other text
the threshold is left as it was. -/
theorem setup_level (canOpen : String → Bool) (lc : LogConfig) (logger : Logger Sink)
    (hopen : lc.FW.On = true → lc.FW.LogPath ≠ "" → canOpen lc.FW.LogPath = true)
    (hopenWf : lc.FW.On = true → lc.FW.WfLogPath ≠ "" → canOpen lc.FW.WfLogPath = true) :
    ∃ l1 err, SetupLogInstanceWithConf canOpen lc logger = some (l1, err) ∧
      (err ≠ none ↔ lc.Level ∉ ["trace", "debug", "info", "warning", "error", "fatal"]) ∧
      (lc.Level = "trace" → l1.level = TRACE ∧ err = none) ∧
      (lc.Level = "debug" → l1.level = DEBUG ∧ err = none) ∧
      (lc.Level = "info" → l1.level = INFO ∧ err = none) ∧
      (lc.Level = "warning" → l1.level = WARNING ∧ err = none) ∧
      (lc.Level = "error" → l1.level = ERROR ∧ err = none) ∧
      (lc.Level = "fatal" → l1.level = FATAL ∧ err = none) ∧
      (lc.Level ∉ ["trace", "debug", "info", "warning", "error", "fatal"] →
        l1.level = logger.level) := by
  obtain ⟨l1, err, hset, _, hok, hbad, h1, h2, h3, h4, h5, h6⟩ :=
    setup_registers canOpen lc logger hopen hopenWf
  have hn : levelNames = ["trace", "debug", "info", "warning", "error", "fatal"] := rfl
  rw [hn] at hok hbad
  refine ⟨l1, err, hset, ?_, ?_, ?_, ?_, ?_, ?_, ?_, fun h => (hbad h).2⟩
  · constructor
    · intro herr hmem
      exact herr (hok hmem)
    · intro h
      rw [(hbad h).1]
      simp
  · intro h; exact ⟨h1 h, hok (by simp [h])⟩
  · intro h; exact ⟨h2 h, hok (by simp [h])⟩
  · intro h; exact ⟨h3 h, hok (by simp [h])⟩
  · intro h; exact ⟨h4 h, hok (by simp [h])⟩
  · intro h; exact ⟨h5 h, hok (by simp [h])⟩
  · intro h; exact ⟨h6 h, hok (by simp [h])⟩

/-- C8, witness: the level name `warning`, and the unknown name `warn`. -/
theorem setup_level_witness :
    ((SetupLogInstanceWithConf (fun _ => true)
        ⟨"warning", ⟨true, "app.log", "", "", ""⟩, ⟨true, true⟩⟩ (Logger.fresh Sink)).map
          fun res => (res.1.level, res.2)) = some (WARNING, none) ∧
    ((SetupLogInstanceWithConf (fun _ => true)
        ⟨"warn", ⟨true, "app.log", "", "", ""⟩, ⟨true, true⟩⟩ (Logger.fresh Sink)).map
          fun res => (res.1.level, res.2)) = some (DEBUG, some "Invalid log level") ∧
    ∃ l1 err, SetupLogInstanceWithConf (fun _ => true)
        ⟨"warn", ⟨true, "app.log", "", "", ""⟩, ⟨true, true⟩⟩ (Logger.fresh Sink)
          = some (l1, err) ∧ err ≠ none ∧ l1.level = (Logger.fresh Sink).level := by
  obtain ⟨l1, err, hset, hiff, _, _, _, _, _, _, hkeep⟩ :=
    setup_level (fun _ => true) ⟨"warn", ⟨true, "app.log", "", "", ""⟩, ⟨true, true⟩⟩
      (Logger.fresh Sink) (fun _ _ => rfl) (fun _ _ => rfl)
  exact ⟨by decide, by decide, l1, err, hset, hiff.mpr (by decide), hkeep (by decide)⟩

/-- C8, counterexample: the level name is `debug`, a valid one, but the file
of the second file sink cannot be opened: `Register` panics, the call does not
return (neither nil nor an error) and never reaches the level name. -/
theorem setup_level_panic_counterexample :
    SetupLogInstanceWithConf (fun path => path == "app.log")
      ⟨"debug", ⟨true, "app.log", "", "/no/such/dir/app.wf.log", ""⟩, ⟨false, false⟩⟩
      ((Logger.fresh Sink).SetLevel ERROR) = none := by
  rfl

end GinLogger
